import Mathlib

/-!
Verification of the rlox bytecode compiler and virtual machine
(`src/value.rs`, `src/vm.rs`, `src/compiler.rs`, `src/native.rs`).

The Rust source is shallowly embedded:
* `f64` runtime numbers are modelled by `Rlox.F64`, an exact algebra of the
  IEEE-754 binary64 value classes (NaN, signed infinities, signed finite
  values with a rational magnitude).  Equality, comparison and the special
  cases of the arithmetic operations (zero divisors, signed zeros, NaN
  propagation) follow IEEE-754 exactly; finite nonzero arithmetic is exact
  rational arithmetic (no claim below depends on rounding).
* `Gc<T>` shared pointers are modelled by content where the source never
  compares them by address (function templates inside closures), and by a
  heap index where the source uses `Gc::ptr_eq` (closures: `Value.closure`
  carries the index of the closure object in the VM state's closure heap).
* the VM (`Vm::run`) is a fuel-driven step function over an explicit state;
  Rust panics (`expect`, out-of-bounds indexing, `transmute` of an invalid
  opcode byte) are modelled as the `stuck` outcome, runtime errors
  (`Error::Runtime`) as `err` carrying the message and the state the
  mutations so far produced (the Rust `Vm` keeps its mutated state when
  `run` returns `Err`).
* the serializer (`FunctionInner::read/write`) is embedded separately in
  namespace `Rlox.Ser` over byte lists, with a `Number` constant carried as
  its 64-bit pattern, exactly as the bytes written and read.
-/

namespace Rlox

/-- Model of an IEEE-754 binary64 value: NaN (payloads are irrelevant to every
operation the VM performs), signed infinities, and signed finite values
`(-1)^neg * mag` with `mag : ℚ`, `mag = 0` giving the two signed zeros. -/
inductive F64 where
  | nan
  | inf (neg : Bool)
  | fin (neg : Bool) (mag : Rat)
deriving DecidableEq

namespace F64

/-- The real value of a finite `F64`, sign applied. -/
def toRat : F64 → Rat
  | .nan => 0
  | .inf _ => 0
  | .fin neg mag => if neg then -mag else mag

def isNan : F64 → Bool
  | .nan => true
  | _ => false

/-- IEEE-754 equality: NaN is unequal to everything (itself included),
infinities compare by sign, finite values compare as reals (so `0.0 == -0.0`
is true and sign is otherwise significant). This is Rust `f64::eq`. -/
def beq : F64 → F64 → Bool
  | .nan, _ => false
  | _, .nan => false
  | .inf s, .inf t => s == t
  | .inf _, .fin _ _ => false
  | .fin _ _, .inf _ => false
  | .fin s p, .fin t q => decide ((if s then -p else p) = (if t then -q else q))

/-- Rust `f64` addition, exact on the value classes (finite results are not
rounded; no claim depends on rounding). -/
def add : F64 → F64 → F64
  | .nan, _ => .nan
  | _, .nan => .nan
  | .inf s, .inf t => if s == t then .inf s else .nan
  | .inf s, .fin _ _ => .inf s
  | .fin _ _, .inf t => .inf t
  | .fin s p, .fin t q =>
    let r := (if s then -p else p) + (if t then -q else q)
    if r = 0 then .fin (s && t) 0 else .fin (decide (r < 0)) |r|

/-- Rust `f64` negation: flips the sign bit (exact per IEEE-754). -/
def neg : F64 → F64
  | .nan => .nan
  | .inf s => .inf (!s)
  | .fin s m => .fin (!s) m

def sub (a b : F64) : F64 := a.add b.neg

/-- Rust `f64` multiplication, exact on the value classes. -/
def mul : F64 → F64 → F64
  | .nan, _ => .nan
  | _, .nan => .nan
  | .inf s, .inf t => .inf (xor s t)
  | .inf s, .fin t q => if q = 0 then .nan else .inf (xor s t)
  | .fin s p, .inf t => if p = 0 then .nan else .inf (xor s t)
  | .fin s p, .fin t q => .fin (xor s t) (p * q)

/-- Rust `f64` division. IEEE-754: NaN propagates; `inf/inf` and `0/0` are
NaN; a finite nonzero dividend over a zero divisor is a signed infinity;
finite nonzero quotients are exact here (rounding never matters below). -/
def div : F64 → F64 → F64
  | .nan, _ => .nan
  | _, .nan => .nan
  | .inf _, .inf _ => .nan
  | .inf s, .fin t _ => .inf (xor s t)
  | .fin s _, .inf t => .fin (xor s t) 0
  | .fin s p, .fin t q =>
    if q = 0 then
      if p = 0 then .nan else .inf (xor s t)
    else .fin (xor s t) (p / q)

/-- Rust `f64` strict less-than: false whenever NaN is involved, otherwise
comparison of the real values (zeros are equal regardless of sign). -/
def lt : F64 → F64 → Bool
  | .nan, _ => false
  | _, .nan => false
  | .inf s, .inf t => s && !t
  | .inf s, .fin _ _ => s
  | .fin _ _, .inf t => !t
  | .fin s p, .fin t q => decide ((if s then -p else p) < (if t then -q else q))

/-- Rust `f64` less-or-equal. -/
def le (a b : F64) : Bool := a.lt b || a.beq b

def zero : F64 := .fin false 0
def negZero : F64 := .fin true 0
def one : F64 := .fin false 1

end F64

/- `Value` from `src/value.rs` together with the function template
`FunctionInner`.  `Closure(Gc<Closure>)` is a heap index (the source compares
closures with `Gc::ptr_eq`); `Function` carries its template by content (the
source never compares function pointers — its `PartialEq` has no `Function`
arm); `NativeFn` carries the index of the registered native (the source's
function pointer into the registration table, whose only entry is `clock`). -/
mutual

inductive Value where
  | nil
  | bool (b : Bool)
  | number (n : F64)
  | closure (id : Nat)
  | function (fn : FunctionInner)
  | nativeFn (slot : Nat)
  | string (s : String)

inductive FunctionInner where
  | mk (arity : Nat) (chunk : List Nat) (lines : List Nat)
       (constants : List Value) (name : Option String)

end

namespace FunctionInner

def arity : FunctionInner → Nat
  | .mk a _ _ _ _ => a

def chunk : FunctionInner → List Nat
  | .mk _ c _ _ _ => c

def lines : FunctionInner → List Nat
  | .mk _ _ l _ _ => l

def constants : FunctionInner → List Value
  | .mk _ _ _ cs _ => cs

def name : FunctionInner → Option String
  | .mk _ _ _ _ n => n

end FunctionInner

namespace Value

/-- `Value::as_bool` (`src/value.rs`): Nil and false are falsey, every other
value is truthy. -/
def as_bool : Value → Bool
  | .nil => false
  | .bool b => b
  | _ => true

/-- `Value::as_number`. -/
def as_number : Value → Option F64
  | .number n => some n
  | _ => none

/-- `Value::as_string`. -/
def as_string : Value → Option String
  | .string s => some s
  | _ => none

/-- `Value::as_function`. -/
def as_function : Value → Option FunctionInner
  | .function f => some f
  | _ => none

/-- The discriminant of a value (which variant it is), for stating that two
values carry different tags. -/
def tag : Value → Nat
  | .nil => 0
  | .bool _ => 1
  | .number _ => 2
  | .closure _ => 3
  | .function _ => 4
  | .nativeFn _ => 5
  | .string _ => 6

/-- `impl PartialEq for Value` (`src/value.rs` lines 135-147): Nil=Nil, Bool
and Number by value, Closure by `Gc::ptr_eq`, String by content, and every
other pairing — including two `Function`s and two `NativeFn`s — falls into
the `(_, _) => false` arm. -/
def eq : Value → Value → Bool
  | .nil, .nil => true
  | .bool a, .bool b => a == b
  | .number a, .number b => F64.beq a b
  | .closure a, .closure b => a == b
  | .string a, .string b => a == b
  | _, _ => false

end Value

/-- `OpCode` (`src/vm.rs`), a `#[repr(u8)]` enum with implicit discriminants
0, 1, 2, … in declaration order. -/
inductive OpCode where
  | Add | Call | Closure | Constant | DefineGlobal | Div | Equal | False
  | GetGlobal | GetLocal | Greater | GreaterEqual | Jump | JumpIfFalsePeek
  | JumpIfFalsePop | JumpIfTruePeek | Less | LessEqual | Loop | Mul | Neg
  | Nil | Not | Pop | Print | Return | SetGlobal | SetLocal | Sub | True
deriving DecidableEq

/-- The byte of an opcode (its `#[repr(u8)]` discriminant). -/
def OpCode.toU8 : OpCode → Nat
  | .Add => 0 | .Call => 1 | .Closure => 2 | .Constant => 3 | .DefineGlobal => 4
  | .Div => 5 | .Equal => 6 | .False => 7 | .GetGlobal => 8 | .GetLocal => 9
  | .Greater => 10 | .GreaterEqual => 11 | .Jump => 12 | .JumpIfFalsePeek => 13
  | .JumpIfFalsePop => 14 | .JumpIfTruePeek => 15 | .Less => 16 | .LessEqual => 17
  | .Loop => 18 | .Mul => 19 | .Neg => 20 | .Nil => 21 | .Not => 22 | .Pop => 23
  | .Print => 24 | .Return => 25 | .SetGlobal => 26 | .SetLocal => 27 | .Sub => 28
  | .True => 29

/-- Decoding a byte into an opcode.  The source uses an unchecked
`mem::transmute`; a byte outside `0..=29` is undefined behaviour there and is
mapped to `none` here (the VM step treats it as `stuck`). -/
def OpCode.ofU8? : Nat → Option OpCode
  | 0 => some .Add | 1 => some .Call | 2 => some .Closure | 3 => some .Constant
  | 4 => some .DefineGlobal | 5 => some .Div | 6 => some .Equal | 7 => some .False
  | 8 => some .GetGlobal | 9 => some .GetLocal | 10 => some .Greater
  | 11 => some .GreaterEqual | 12 => some .Jump | 13 => some .JumpIfFalsePeek
  | 14 => some .JumpIfFalsePop | 15 => some .JumpIfTruePeek | 16 => some .Less
  | 17 => some .LessEqual | 18 => some .Loop | 19 => some .Mul | 20 => some .Neg
  | 21 => some .Nil | 22 => some .Not | 23 => some .Pop | 24 => some .Print
  | 25 => some .Return | 26 => some .SetGlobal | 27 => some .SetLocal
  | 28 => some .Sub | 29 => some .True
  | _ => none

/-- `FRAMES_MAX` (`src/vm.rs` line 39). -/
def FRAMES_MAX : Nat := 64

/-- `HashMap::get` on the globals map, modelled as an association list with
(by construction) unique keys, compared by string content as `Gc<String>`
keys are. -/
def lookupG : List (String × Value) → String → Option Value
  | [], _ => none
  | (k, w) :: rest, n => if k = n then some w else lookupG rest n

/-- `HashMap::insert` on the globals map: replaces the existing entry for the
key if there is one, returning the previous value, else adds a new entry. -/
def insertG : List (String × Value) → String → Value → Option Value × List (String × Value)
  | [], n, v => (none, [(n, v)])
  | (k, w) :: rest, n, v =>
    if k = n then (some w, (n, v) :: rest)
    else
      let r := insertG rest n v
      (r.1, (k, w) :: r.2)

/-- `HashMap::remove` on the globals map: deletes the entry for the key. -/
def removeG : List (String × Value) → String → List (String × Value)
  | [], _ => []
  | (k, w) :: rest, n => if k = n then rest else (k, w) :: removeG rest n

/-- The VM operand stack is a `Vec<Gc<Value>>`; it is modelled bottom-first
(`Vec` index 0 at the list head), so `push` appends at the end. -/
def push (stk : List Value) (v : Value) : List Value := stk ++ [v]

/-- `Vm::pop`: removes and returns the top of the stack; popping an empty
stack panics in the source (`expect`), `none` here. -/
def popS (stk : List Value) : Option (Value × List Value) :=
  match stk.getLast? with
  | none => none
  | some v => some (v, stk.dropLast)

/-- `Vm::peek(offset)`: the value `offset` slots below the top; indexing out
of range panics in the source, `none` here. -/
def peekS (stk : List Value) (offset : Nat) : Option Value :=
  if offset < stk.length then stk.get? (stk.length - 1 - offset) else none

/-- `CallFrame` (`src/vm.rs`): the executing closure (by heap index), the
instruction pointer, and the frame's base slot in the operand stack. -/
structure CallFrame where
  closureId : Nat
  ip : Nat
  slots_start : Nat
deriving DecidableEq

/-- The `Vm` state (`src/vm.rs`), together with the model's closure heap
(`closures`: the targets of `Gc<Closure>` pointers, by allocation order), the
values printed so far (`printed`, the observable stdout), and the host
monotonic clock reading (`clock`: `clock()` in `src/native.rs` returns the
seconds elapsed since process start; the elapsed time is an input here). -/
structure VmState where
  frames : List CallFrame
  stack : List Value
  globals : List (String × Value)
  closures : List FunctionInner
  printed : List Value
  clock : F64

/-- Outcome of one VM dispatch step: `ok` continues, `err` is a runtime error
(`Error::Runtime`) carrying the message and the mutated-so-far state, `done`
is the return path out of `Vm::run`, `stuck` models a Rust panic (stack
underflow, out-of-bounds index, invalid opcode byte). -/
inductive StepOut where
  | ok (s : VmState)
  | err (msg : String) (s : VmState)
  | done (s : VmState)
  | stuck

/-- Replace the last (current) call frame, as the source's `frame!()`
mutation does. -/
def setLastFrame (l : List CallFrame) (f : CallFrame) : List CallFrame :=
  l.dropLast ++ [f]

/-- The registered native functions (`src/native.rs`): slot 0 is `clock`,
which ignores its arguments and returns the elapsed seconds since process
start as a Number (the state's `clock` field). -/
def nativeCall (slot : Nat) (s : VmState) (args : List Value) : Option Value :=
  match slot, args with
  | 0, _ => some (.number s.clock)
  | _, _ => none

/-- `Vm::call` (`src/vm.rs` lines 317-327): check the argument count against
the callee's arity, then the `FRAMES_MAX` bound, then push a frame whose base
is under the callee and its arguments.  Computing that base as
`self.stack.len() - usize::from(arg_count) - 1` panics by usize underflow
when the stack holds at most `arg_count` values; the panic is modelled as
`stuck`. -/
def call (s : VmState) (id : Nat) (argc : Nat) : StepOut :=
  match s.closures.get? id with
  | none => .stuck
  | some cfn =>
    if argc ≠ cfn.arity then
      .err ("Expected " ++ toString cfn.arity ++ " arguments but got " ++
            toString argc ++ ".") s
    else if s.frames.length = FRAMES_MAX then
      .err "Stack overflow." s
    else if s.stack.length ≤ argc then .stuck
    else
      .ok { s with
            frames := s.frames ++
              [{ closureId := id, ip := 0,
                 slots_start := s.stack.length - argc - 1 }] }

/-- `Vm::call_value` (`src/vm.rs` lines 303-315): a Closure goes through
`Vm::call` (arity check); a NativeFn is invoked on the top `argc` values with
no arity check, those values and the callee are removed and the result is
pushed; anything else is a runtime error.  When the stack holds at most
`argc` values the source panics by usize underflow (in the argument slice
`self.stack[self.stack.len() - arg_count ..]` for `argc` larger than the
stack, else in `truncate(self.stack.len() - arg_count - 1)`); the panic is
modelled as `stuck`. -/
def call_value (s : VmState) (v : Value) (argc : Nat) : StepOut :=
  match v with
  | .closure id => call s id argc
  | .nativeFn slot =>
    if s.stack.length ≤ argc then .stuck
    else
      let args := s.stack.drop (s.stack.length - argc)
      match nativeCall slot s args with
      | none => .stuck
      | some result =>
        .ok { s with stack := push (s.stack.take (s.stack.length - argc - 1)) result }
  | _ => .err "Can only call functions and classes." s

/-- The shared shape of the `Div`, `Greater`, `GreaterEqual`, `Less`,
`LessEqual`, `Mul` and `Sub` arms of `Vm::run`: pop the right then the left
operand, failing with "Operands must be numbers." as soon as a popped operand
is not a Number, else push `mk lhs rhs`. -/
def numBinOp (s : VmState) (f : CallFrame) (mk : F64 → F64 → Value) : StepOut :=
  let frames1 := setLastFrame s.frames ({ f with ip := f.ip + 1 })
  match popS s.stack with
  | none => .stuck
  | some (rhsv, stk1) =>
    match rhsv.as_number with
    | none => .err "Operands must be numbers." { s with frames := frames1, stack := stk1 }
    | some rhs =>
      match popS stk1 with
      | none => .stuck
      | some (lhsv, stk2) =>
        match lhsv.as_number with
        | none => .err "Operands must be numbers." { s with frames := frames1, stack := stk2 }
        | some lhs => .ok { s with frames := frames1, stack := push stk2 (mk lhs rhs) }

/-- One arm of the dispatch `match` in `Vm::run`.  `f` is the current (last)
frame with `ip` still pointing at the opcode byte (the byte reads of the
source advance it; every arm below writes the advanced `ip` back), `fn'` the
function template of the executing closure. -/
def execInstr (s : VmState) (f : CallFrame) (fn' : FunctionInner) : OpCode → StepOut
  | .Add =>
    let frames1 := setLastFrame s.frames ({ f with ip := f.ip + 1 })
    match popS s.stack with
    | none => .stuck
    | some (rhs, stk1) =>
      match popS stk1 with
      | none => .stuck
      | some (lhs, stk2) =>
        match lhs, rhs with
        | .string a, .string b =>
          .ok { s with frames := frames1, stack := push stk2 (.string (a ++ b)) }
        | .number a, .number b =>
          .ok { s with frames := frames1, stack := push stk2 (.number (a.add b)) }
        | _, _ =>
          .err "Operands must be two numbers or two strings."
              { s with frames := frames1, stack := stk2 }
  | .Call =>
    match fn'.chunk.get? (f.ip + 1) with
    | none => .stuck
    | some argc =>
      let s1 := { s with frames := setLastFrame s.frames ({ f with ip := f.ip + 2 }) }
      match peekS s.stack argc with
      | none => .stuck
      | some rcpt => call_value s1 rcpt argc
  | .Closure =>
    match fn'.chunk.get? (f.ip + 1) with
    | none => .stuck
    | some k =>
      match fn'.constants.get? k with
      | none => .stuck
      | some c =>
        match c.as_function with
        | none => .stuck
        | some cf =>
          .ok { s with frames := setLastFrame s.frames ({ f with ip := f.ip + 2 }),
                       stack := push s.stack (.closure s.closures.length),
                       closures := s.closures ++ [cf] }
  | .Constant =>
    match fn'.chunk.get? (f.ip + 1) with
    | none => .stuck
    | some k =>
      match fn'.constants.get? k with
      | none => .stuck
      | some c =>
        .ok { s with frames := setLastFrame s.frames ({ f with ip := f.ip + 2 }),
                     stack := push s.stack c }
  | .DefineGlobal =>
    match fn'.chunk.get? (f.ip + 1) with
    | none => .stuck
    | some k =>
      match fn'.constants.get? k with
      | none => .stuck
      | some c =>
        match c.as_string with
        | none => .stuck
        | some name =>
          match popS s.stack with
          | none => .stuck
          | some (v, stk1) =>
            .ok { s with frames := setLastFrame s.frames ({ f with ip := f.ip + 2 }),
                         stack := stk1, globals := (insertG s.globals name v).2 }
  | .Div => numBinOp s f (fun a b => .number (a.div b))
  | .Equal =>
    let frames1 := setLastFrame s.frames ({ f with ip := f.ip + 1 })
    match popS s.stack with
    | none => .stuck
    | some (rhs, stk1) =>
      match popS stk1 with
      | none => .stuck
      | some (lhs, stk2) =>
        .ok { s with frames := frames1, stack := push stk2 (.bool (Value.eq lhs rhs)) }
  | .False =>
    .ok { s with frames := setLastFrame s.frames ({ f with ip := f.ip + 1 }),
                 stack := push s.stack (.bool false) }
  | .GetGlobal =>
    match fn'.chunk.get? (f.ip + 1) with
    | none => .stuck
    | some k =>
      match fn'.constants.get? k with
      | none => .stuck
      | some c =>
        match c.as_string with
        | none => .stuck
        | some name =>
          let frames1 := setLastFrame s.frames ({ f with ip := f.ip + 2 })
          match lookupG s.globals name with
          | none => .err ("Undefined variable '" ++ name ++ "'.")
                        { s with frames := frames1 }
          | some v => .ok { s with frames := frames1, stack := push s.stack v }
  | .GetLocal =>
    match fn'.chunk.get? (f.ip + 1) with
    | none => .stuck
    | some slot =>
      match s.stack.get? (f.slots_start + slot) with
      | none => .stuck
      | some v =>
        .ok { s with frames := setLastFrame s.frames ({ f with ip := f.ip + 2 }),
                     stack := push s.stack v }
  | .Greater => numBinOp s f (fun a b => .bool (b.lt a))
  | .GreaterEqual => numBinOp s f (fun a b => .bool (b.le a))
  | .Jump =>
    match fn'.chunk.get? (f.ip + 1), fn'.chunk.get? (f.ip + 2) with
    | some b1, some b2 =>
      .ok { s with frames := setLastFrame s.frames ({ f with ip := f.ip + 3 + (b1 + 256 * b2) }) }
    | _, _ => .stuck
  | .JumpIfFalsePeek =>
    match fn'.chunk.get? (f.ip + 1), fn'.chunk.get? (f.ip + 2) with
    | some b1, some b2 =>
      match peekS s.stack 0 with
      | none => .stuck
      | some v =>
        .ok { s with frames := setLastFrame s.frames ({ f with ip := f.ip + 3 + (if v.as_bool then 0 else b1 + 256 * b2) }) }
    | _, _ => .stuck
  | .JumpIfFalsePop =>
    match fn'.chunk.get? (f.ip + 1), fn'.chunk.get? (f.ip + 2) with
    | some b1, some b2 =>
      match popS s.stack with
      | none => .stuck
      | some (v, stk1) =>
        .ok { s with
              frames := setLastFrame s.frames ({ f with ip := f.ip + 3 + (if v.as_bool then 0 else b1 + 256 * b2) }),
              stack := stk1 }
    | _, _ => .stuck
  | .JumpIfTruePeek =>
    match fn'.chunk.get? (f.ip + 1), fn'.chunk.get? (f.ip + 2) with
    | some b1, some b2 =>
      match peekS s.stack 0 with
      | none => .stuck
      | some v =>
        .ok { s with frames := setLastFrame s.frames ({ f with ip := f.ip + 3 + (if v.as_bool then b1 + 256 * b2 else 0) }) }
    | _, _ => .stuck
  | .Less => numBinOp s f (fun a b => .bool (a.lt b))
  | .LessEqual => numBinOp s f (fun a b => .bool (a.le b))
  | .Loop =>
    match fn'.chunk.get? (f.ip + 1), fn'.chunk.get? (f.ip + 2) with
    | some b1, some b2 =>
      if b1 + 256 * b2 ≤ f.ip + 3 then
        .ok { s with frames := setLastFrame s.frames ({ f with ip := f.ip + 3 - (b1 + 256 * b2) }) }
      else .stuck
    | _, _ => .stuck
  | .Mul => numBinOp s f (fun a b => .number (a.mul b))
  | .Neg =>
    let frames1 := setLastFrame s.frames ({ f with ip := f.ip + 1 })
    match popS s.stack with
    | none => .stuck
    | some (v, stk1) =>
      match v.as_number with
      | none => .err "Operand must be a number." { s with frames := frames1, stack := stk1 }
      | some n => .ok { s with frames := frames1, stack := push stk1 (.number n.neg) }
  | .Nil =>
    .ok { s with frames := setLastFrame s.frames ({ f with ip := f.ip + 1 }),
                 stack := push s.stack .nil }
  | .Not =>
    match popS s.stack with
    | none => .stuck
    | some (v, stk1) =>
      .ok { s with frames := setLastFrame s.frames ({ f with ip := f.ip + 1 }),
                   stack := push stk1 (.bool (!v.as_bool)) }
  | .Pop =>
    match popS s.stack with
    | none => .stuck
    | some (_, stk1) =>
      .ok { s with frames := setLastFrame s.frames ({ f with ip := f.ip + 1 }),
                   stack := stk1 }
  | .Print =>
    match popS s.stack with
    | none => .stuck
    | some (v, stk1) =>
      .ok { s with frames := setLastFrame s.frames ({ f with ip := f.ip + 1 }),
                   stack := stk1, printed := s.printed ++ [v] }
  | .Return =>
    match popS s.stack with
    | none => .stuck
    | some (result, stk1) =>
      let frames1 := s.frames.dropLast
      if frames1.isEmpty then
        match popS stk1 with
        | none => .stuck
        | some (_, stk2) => .done { s with frames := frames1, stack := stk2 }
      else
        .ok { s with frames := frames1,
                     stack := push (stk1.take f.slots_start) result }
  | .SetGlobal =>
    match fn'.chunk.get? (f.ip + 1) with
    | none => .stuck
    | some k =>
      match fn'.constants.get? k with
      | none => .stuck
      | some c =>
        match c.as_string with
        | none => .stuck
        | some name =>
          let frames1 := setLastFrame s.frames ({ f with ip := f.ip + 2 })
          match peekS s.stack 0 with
          | none => .stuck
          | some v =>
            let r := insertG s.globals name v
            match r.1 with
            | some _ => .ok { s with frames := frames1, globals := r.2 }
            | none =>
              .err ("Undefined variable '" ++ name ++ "'.")
                  { s with frames := frames1, globals := removeG r.2 name }
  | .SetLocal =>
    match fn'.chunk.get? (f.ip + 1) with
    | none => .stuck
    | some slot =>
      match peekS s.stack 0 with
      | none => .stuck
      | some v =>
        if f.slots_start + slot < s.stack.length then
          .ok { s with frames := setLastFrame s.frames ({ f with ip := f.ip + 2 }),
                       stack := s.stack.set (f.slots_start + slot) v }
        else .stuck
  | .Sub => numBinOp s f (fun a b => .number (a.sub b))
  | .True =>
    .ok { s with frames := setLastFrame s.frames ({ f with ip := f.ip + 1 }),
                 stack := push s.stack (.bool true) }

/-- One iteration of the dispatch loop of `Vm::run`: fetch the opcode byte of
the current frame and execute it.  No frame, a dangling closure pointer, an
`ip` outside the chunk, or an invalid opcode byte are panics / undefined
behaviour in the source, `stuck` here. -/
def step (s : VmState) : StepOut :=
  match s.frames.getLast? with
  | none => .stuck
  | some f =>
    match s.closures.get? f.closureId with
    | none => .stuck
    | some fn' =>
      match fn'.chunk.get? f.ip with
      | none => .stuck
      | some b =>
        match OpCode.ofU8? b with
        | none => .stuck
        | some op => execInstr s f fn' op

/-- Outcome of running the VM loop with fuel. -/
inductive RunOut where
  | ok (s : VmState)
  | err (msg : String) (s : VmState)
  | stuck
  | nofuel (s : VmState)

/-- `Vm::run`, fuel-driven. -/
def run : Nat → VmState → RunOut
  | 0, s => .nofuel s
  | fuel + 1, s =>
    match step s with
    | .ok s' => run fuel s'
    | .err m s' => .err m s'
    | .done s' => .ok s'
    | .stuck => .stuck

/-- `Vm::new`: empty frames and stack, globals holding the registered
natives (`clock` in slot 0 of the native table). -/
def initVm (clock : F64) : VmState :=
  { frames := [], stack := [], globals := [("clock", .nativeFn 0)],
    closures := [], printed := [], clock }

/-- The first half of `Vm::interpret`: allocate the top-level closure, push
it, and call it with zero arguments. -/
def interpretStart (fn' : FunctionInner) (clock : F64) : StepOut :=
  let s0 := initVm clock
  call { s0 with closures := [fn'], stack := [.closure 0] } 0 0

/-- `Vm::interpret`, fuel-driven: set up the top-level call, then run. -/
def interpret (fn' : FunctionInner) (clock : F64) (fuel : Nat) : RunOut :=
  match interpretStart fn' clock with
  | .ok s => run fuel s
  | .err m s => .err m s
  | _ => .stuck

/-- States reachable from `s` by successful VM steps. -/
def Reach (s s' : VmState) : Prop :=
  Relation.ReflTransGen (fun a b => step a = .ok b) s s'

namespace Ser

/-!
The binary object format of `src/value.rs` (`Value::read/write`,
`FunctionInner::read/write`, `Closure::read/write`), embedded over byte
lists.  A Rust `String` is its UTF-8 byte content, modelled as the byte list
itself; a `Number` is carried as its 64-bit IEEE-754 pattern, exactly the
eight little-endian bytes `write_f64` emits and `read_f64` consumes; a
`NativeFn` is the index of the registered native (`serialize` writes the
slot, `deserialize` looks it up — only slot 0, `clock`, is registered).
-/

/- The serialization-side value and chunk types, mirroring `Value` and
`FunctionInner` of `src/value.rs`.  `Closure(Gc<Closure>)` serializes through
its function template, so it carries one here. -/
mutual

inductive Value where
  | nil
  | bool (b : Bool)
  | number (bits : Nat)
  | closure (fn : FunctionInner)
  | function (fn : FunctionInner)
  | nativeFn (slot : Nat)
  | string (bytes : List Nat)

inductive FunctionInner where
  | mk (arity : Nat) (chunk : List Nat) (lines : List Nat)
       (constants : List Value) (name : Option (List Nat))

end

/-- Errors of the decoding path: `io::Error` of kind `UnexpectedEof`
(`read_exact` / `read_u8` past the end of the input), `Error::Decode`, and
exhaustion of the recursion fuel (never hit at the inputs used below). -/
inductive RErr where
  | eof
  | decode (what : String)
  | fuel
deriving DecidableEq

/-- The `k` little-endian base-256 digits of `n` (`write_u64`, `write_u32`,
`to_le_bytes`). -/
def leBytes : Nat → Nat → List Nat
  | 0, _ => []
  | k + 1, n => n % 256 :: leBytes k (n / 256)

/-- Assemble a little-endian integer from the first `k` bytes. -/
def leVal : Nat → List Nat → Nat
  | 0, _ => 0
  | _ + 1, [] => 0
  | k + 1, b :: rest => b + 256 * leVal k rest

/-- `read_u8`. -/
def readU8 (s : List Nat) : Except RErr (Nat × List Nat) :=
  match s with
  | [] => .error .eof
  | b :: rest => .ok (b, rest)

/-- `read_u64::<LittleEndian>` (`k = 8`) and `read_u32` (`k = 4`): consume
`k` bytes and assemble them little-endian. -/
def readLE (k : Nat) (s : List Nat) : Except RErr (Nat × List Nat) :=
  if k ≤ s.length then .ok (leVal k s, s.drop k) else .error .eof

/-- `read_exact` into a buffer of length `n` (`vec![0; len]`, as the chunk
bytes are read): consume exactly `n` bytes. -/
def readExact (n : Nat) (s : List Nat) : Except RErr (List Nat × List Nat) :=
  if n ≤ s.length then .ok (s.take n, s.drop n) else .error .eof

/-- The run-length encoding of the line table written by
`FunctionInner::write`: for each maximal run (capped at 255) of equal line
numbers, one `u8` run length followed by the `u32-LE` line. -/
def countRun (line : Nat) : Nat → List Nat → Nat × List Nat
  | 0, l => (0, l)
  | _ + 1, [] => (0, [])
  | cap + 1, x :: xs =>
    if x = line then
      let r := countRun line cap xs
      (r.1 + 1, r.2)
    else (0, x :: xs)

theorem countRun_length_le (line cap : Nat) (l : List Nat) :
    (countRun line cap l).2.length ≤ l.length := by
  induction cap generalizing l with
  | zero => simp [countRun]
  | succ cap ih =>
    cases l with
    | nil => simp [countRun]
    | cons x xs =>
      by_cases hx : x = line
      · simpa [countRun, hx] using (ih xs).trans (Nat.le_succ _)
      · simp [countRun, hx]

/-- The line-table writing loop of `FunctionInner::write` (`run_len` starts
at 1 and grows while the next line matches and `run_len < u8::MAX`). -/
def rleLines : List Nat → List Nat
  | [] => []
  | line :: rest =>
    let r := countRun line 254 rest
    have _hr : r.2.length ≤ rest.length := countRun_length_le line 254 rest
    (r.1 + 1) :: (leBytes 4 line ++ rleLines r.2)
termination_by l => l.length
decreasing_by
  simpa using Nat.lt_succ_of_le _hr

/- `Value::write`, `FunctionInner::write` and the constant-pool loop,
mutually recursive.  `none` models the panics of the source: `assert_eq!(*arity, 0)`
for a nameless chunk, and `expect("more than u8::MAX constants")` when the
pool exceeds 255 entries. -/
mutual

def Value.write : Value → Option (List Nat)
  | .nil => some [0]
  | .bool false => some [1]
  | .bool true => some [2]
  | .number bits => some (3 :: leBytes 8 bits)
  | .closure f => (FunctionInner.write f).map (fun w => 4 :: w)
  | .function f => (FunctionInner.write f).map (fun w => 5 :: w)
  | .nativeFn slot => some [6, slot]
  | .string bytes => some (7 :: (leBytes 8 bytes.length ++ bytes))

def FunctionInner.write : FunctionInner → Option (List Nat)
  | .mk arity chunk lines constants name =>
    let header : Option (List Nat) :=
      match name with
      | some nm => some (leBytes 8 nm.length ++ nm ++ [arity])
      | none => if arity = 0 then some [0xc0] else none
    match header, constantsWrite constants with
    | some h, some cs =>
      if constants.length ≤ 255 then
        some (h ++ [constants.length] ++ cs ++ leBytes 8 chunk.length ++ chunk ++
              rleLines lines ++ [0])
      else none
    | _, _ => none

def constantsWrite : List Value → Option (List Nat)
  | [] => some []
  | v :: vs =>
    match Value.write v, constantsWrite vs with
    | some w, some ws => some (w ++ ws)
    | _, _ => none

end

/-- The line-table reading loop of `FunctionInner::read`: `(u8 run, u32-LE
line)` pairs until a zero run length, each extending the table by `run`
copies of `line` (`Vec::resize`). -/
def linesRead : List Nat → Except RErr (List Nat × List Nat)
  | [] => .error .eof
  | 0 :: s => .ok ([], s)
  | runLen :: s =>
    if 4 ≤ s.length then
      match linesRead (s.drop 4) with
      | .error e => .error e
      | .ok (rest, s') => .ok (List.replicate runLen (leVal 4 s) ++ rest, s')
    else .error .eof
termination_by l => l.length
decreasing_by
  simp only [List.length_cons, List.length_drop]
  omega

/- `Value::read`, `FunctionInner::read` and the constant-pool reading loop,
mutually recursive on a fuel bound (each level of value nesting consumes
fuel; the inputs below stay far under it). -/
mutual

def Value.read : Nat → List Nat → Except RErr (Value × List Nat)
  | 0, _ => .error .fuel
  | fuel + 1, s =>
    match readU8 s with
    | .error e => .error e
    | .ok (tag, s) =>
      match tag with
      | 0 => .ok (.nil, s)
      | 1 => .ok (.bool false, s)
      | 2 => .ok (.bool true, s)
      | 3 =>
        match readLE 8 s with
        | .error e => .error e
        | .ok (bits, s) => .ok (.number bits, s)
      | 4 =>
        match FunctionInner.read fuel false s with
        | .error e => .error e
        | .ok (f, s) => .ok (.closure f, s)
      | 5 =>
        match FunctionInner.read fuel false s with
        | .error e => .error e
        | .ok (f, s) => .ok (.function f, s)
      | 6 =>
        match readU8 s with
        | .error e => .error e
        | .ok (id, s) => if id = 0 then .ok (.nativeFn 0, s) else .error (.decode "NativeFn")
      | 7 =>
        match readLE 8 s with
        | .error e => .error e
        | .ok (_len, s) =>
          -- Faithful to the source bug: `Vec::with_capacity(len)` has length
          -- 0, so `read_exact(&mut buf)` fills zero bytes, consumes nothing,
          -- and `String::from_utf8` decodes the empty string.
          .ok (.string [], s)
      | _ => .error (.decode "Value")
termination_by fuel _ => (fuel, 0, 0)

def FunctionInner.read : Nat → Bool → List Nat → Except RErr (FunctionInner × List Nat)
  | 0, _, _ => .error .fuel
  | fuel + 1, is_script, s =>
    let nameStep : Except RErr (Option (List Nat) × List Nat) :=
      if is_script then .ok (none, s)
      else
        match readLE 8 s with
        | .error e => .error e
        | .ok (_len, s) =>
          -- Same `Vec::with_capacity(len)` bug: the name reads back empty.
          .ok (some [], s)
    match nameStep with
    | .error e => .error e
    | .ok (name, s) =>
      match if is_script then .ok (0, s) else readU8 s with
      | .error e => .error e
      | .ok (arity, s) =>
        match readU8 s with
        | .error e => .error e
        | .ok (clen, s) =>
          match constantsRead fuel clen s with
          | .error e => .error e
          | .ok (constants, s) =>
            match readLE 8 s with
            | .error e => .error e
            | .ok (codeLen, s) =>
              match readExact codeLen s with
              | .error e => .error e
              | .ok (chunk, s) =>
                match linesRead s with
                | .error e => .error e
                | .ok (lines, s) => .ok (.mk arity chunk lines constants name, s)
termination_by fuel _ _ => (fuel, 2, 0)

def constantsRead : Nat → Nat → List Nat → Except RErr (List Value × List Nat)
  | _, 0, s => .ok ([], s)
  | fuel, n + 1, s =>
    match Value.read fuel s with
    | .error e => .error e
    | .ok (v, s) =>
      match constantsRead fuel n s with
      | .error e => .error e
      | .ok (vs, s) => .ok (v :: vs, s)
termination_by fuel n _ => (fuel, 1, n)

end

/-- The round trip of a serialized script chunk, as the driver
(`src/main.rs`, `compile`) performs it: `FunctionInner::write` emits the
magic byte `0xc0` first for a nameless chunk, the reader checks and consumes
it and hands the rest to `FunctionInner::read(stream, true)`. -/
def roundTripScript (c : FunctionInner) : Option (Except RErr (FunctionInner × List Nat)) :=
  (FunctionInner.write c).map
    (fun w => FunctionInner.read (w.length + 1) true (w.drop 1))

end Ser

/-!
The AST (`src/ast.rs`) and the single-pass compiler (`src/compiler.rs`).
Line numbers (`u32` in the source) are `Nat`; number literals carry an `F64`.
-/

inductive BinaryOp where
  | Or | And | NotEqual | Equal | Greater | GreaterEqual | Less | LessEqual
  | Sub | Add | Div | Mul
deriving DecidableEq

inductive UnaryOp where
  | Not | Neg
deriving DecidableEq

/- `Expr` and `Stmt` from `src/ast.rs`. -/
mutual

inductive Expr where
  | Assign (rcpt : Option Expr) (name : String) (name_line : Nat) (value : Expr)
  | Binary (lhs : Expr) (op : BinaryOp) (rhs : Expr)
  | Unary (op : UnaryOp) (inner : Expr)
  | Call (rcpt : Expr) (args : List Expr) (last_line : Nat)
  | True (line : Nat)
  | False (line : Nat)
  | Nil (line : Nat)
  | Number (value : F64) (line : Nat)
  | String (value : String) (last_line : Nat)
  | Variable (name : String) (line : Nat)

inductive Stmt where
  | Fun (name : String) (name_line : Nat) (params : List (Nat × String))
        (body : List Stmt) (last_line : Nat)
  | Var (name : String) (name_line : Nat) (init : Option Expr) (last_line : Nat)
  | Expr (expr : Expr) (last_line : Nat)
  | If (cond : Expr) (right_paren_line : Nat) (then_ : Stmt) (else_ : Option Stmt)
  | Print (expr : Expr) (last_line : Nat)
  | Return (keyword_line : Nat) (expr : Option Expr) (last_line : Nat)
  | While (cond : Expr) (right_paren_line : Nat) (body : Stmt)
  | Block (stmts : List Stmt) (last_line : Nat)

end

/- `Expr::last_line` and `Stmt::last_line`. -/
mutual

def Expr.last_line : Expr → Nat
  | .True line | .False line | .Nil line | .Number _ line | .Variable _ line => line
  | .Call _ _ l | .String _ l => l
  | .Assign _ _ _ inner | .Binary _ _ inner | .Unary _ inner => inner.last_line

def Stmt.last_line : Stmt → Nat
  | .Fun _ _ _ _ l | .Var _ _ _ l | .Expr _ l | .Print _ l | .Return _ _ l
  | .Block _ l => l
  | .If _ _ inner none => inner.last_line
  | .If _ _ _ (some inner) => inner.last_line
  | .While _ _ inner => inner.last_line

end

/-- `FunctionType` (`src/compiler.rs`). -/
inductive FunctionType where
  | Function | Initializer | Method | Script
deriving DecidableEq

/-- `Local` (`src/compiler.rs`). -/
structure Local where
  name : String
  depth : Option Nat
  is_captured : Bool
deriving DecidableEq

/-- The `Compiler` record (`src/compiler.rs`). -/
structure Compiler where
  function : FunctionInner
  fn_type : FunctionType
  locals : List Local
  scope_depth : Nat

/-- Compilation failure: `Error::Compile` with its message and line, or a
panic of the compiler itself (`unimplemented!()` for property assignment,
`expect` on an undefined local at scope end, an `unreachable!` arm). -/
inductive CErr where
  | compile (msg : String) (line : Nat)
  | panicked
deriving DecidableEq

/-- `FunctionInner::default()`. -/
def FunctionInner.default : FunctionInner := .mk 0 [] [] [] none

/-- `Compiler::new`. -/
def Compiler.new (fn_type : FunctionType) : Compiler :=
  { function := FunctionInner.default,
    locals := [{ name := "", depth := some 0, is_captured := false }],
    scope_depth := match fn_type with | .Script => 0 | _ => 1,
    fn_type }

namespace Compiler

/-- `FunctionInner::add_code`: append one byte to the chunk and its line to
the parallel line table. -/
def add_code (c : Compiler) (line code : Nat) : Compiler :=
  { c with function := (FunctionInner.mk c.function.arity (c.function.chunk ++ [code]) (c.function.lines ++ [line]) c.function.constants c.function.name) }

/-- `FunctionInner::add_constant`: append to the pool, return its index. -/
def add_constant (c : Compiler) (v : Value) : Compiler × Nat :=
  ({ c with function := (FunctionInner.mk c.function.arity c.function.chunk c.function.lines (c.function.constants ++ [v]) c.function.name) },
   c.function.constants.length)

/-- `Compiler::emit`. -/
def emit (c : Compiler) (line : Nat) (opcode : OpCode) : Compiler :=
  c.add_code line opcode.toU8

/-- `Compiler::emit_with_arg`. -/
def emit_with_arg (c : Compiler) (line : Nat) (opcode : OpCode) (arg : Nat) : Compiler :=
  (c.emit line opcode).add_code line arg

/-- `Compiler::make_constant`: the new index must fit in a `u8`. -/
def make_constant (c : Compiler) (line : Nat) (v : Value) : Except CErr (Compiler × Nat) :=
  let r := c.add_constant v
  if r.2 ≤ 255 then .ok r
  else .error (.compile "Too many constants in one chunk." line)

/-- `Compiler::emit_constant`. -/
def emit_constant (c : Compiler) (line : Nat) (opcode : OpCode) (v : Value) :
    Except CErr Compiler :=
  match c.make_constant line v with
  | .error e => .error e
  | .ok (c, idx) => .ok (c.emit_with_arg line opcode idx)

/-- `Compiler::emit_jump`: opcode plus a two-byte placeholder; returns the
placeholder's index (`Jump(chunk.len() - 2)`). -/
def emit_jump (c : Compiler) (line : Nat) (opcode : OpCode) : Compiler × Nat :=
  let c := ((c.emit line opcode).add_code line 0).add_code line 0
  (c, c.function.chunk.length - 2)

/-- `Compiler::patch_jump`: write `chunk.len() - from_idx - 2` little-endian
over the placeholder; more than `u16::MAX` is a compile error. -/
def patch_jump (c : Compiler) (line : Nat) (from_idx : Nat) : Except CErr Compiler :=
  let offset := c.function.chunk.length - from_idx - 2
  if offset ≤ 65535 then
    .ok { c with function := (FunctionInner.mk c.function.arity ((c.function.chunk.set from_idx (offset % 256)).set (from_idx + 1) (offset / 256 % 256)) c.function.lines c.function.constants c.function.name) }
  else .error (.compile "Too much code to jump over." line)

/-- `Compiler::emit_loop`: emit `Loop`, then the distance back to
`loop_start` measured from past the two offset bytes, little-endian; more
than `u16::MAX` is a compile error. -/
def emit_loop (c : Compiler) (line : Nat) (loop_start : Nat) : Except CErr Compiler :=
  let c := c.emit line .Loop
  let offset := c.function.chunk.length - loop_start + 2
  if offset ≤ 65535 then
    .ok ((c.add_code line (offset % 256)).add_code line (offset / 256 % 256))
  else .error (.compile "Loop body too large." line)

/-- `Compiler::emit_return`: an initializer returns slot 0, everything else
an implicit `nil`. -/
def emit_return (c : Compiler) (line : Nat) : Compiler :=
  let c := match c.fn_type with
    | .Initializer => c.emit_with_arg line .GetLocal 0
    | _ => c.emit line .Nil
  c.emit line .Return

/-- `Compiler::begin_scope`. -/
def begin_scope (c : Compiler) : Compiler :=
  { c with scope_depth := c.scope_depth + 1 }

/-- The pop-locals loop of `Compiler::end_scope`: emit one `Pop` per local
declared at a depth deeper than the (already decremented) scope depth.  A
local with no depth panics in the source (`expect`). -/
def end_scope_loop (c : Compiler) (line : Nat) : Except CErr Compiler :=
  match h : c.locals.getLast? with
  | none => .ok c
  | some l =>
    match l.depth with
    | none => .error .panicked
    | some d =>
      if c.scope_depth < d then
        end_scope_loop { c.emit line .Pop with locals := c.locals.dropLast } line
      else .ok c
termination_by c.locals.length
decreasing_by
  have hpos : 0 < c.locals.length := by
    cases hl : c.locals with
    | nil => rw [hl] at h; simp at h
    | cons x xs => simp
  simp only [List.length_dropLast]
  omega

/-- `Compiler::end_scope`. -/
def end_scope (c : Compiler) (line : Nat) : Except CErr Compiler :=
  end_scope_loop { c with scope_depth := c.scope_depth - 1 } line

/-- The backward walk of `Compiler::declare_variable` over the locals of the
current scope (`self.locals.iter().rev()`, so this runs on the reversed
list): stop at the first local of a shallower depth, error on a name
collision. -/
def shadowCheckRev (rev_locals : List Local) (scope_depth : Nat) (name : String)
    (name_line : Nat) : Except CErr Unit :=
  match rev_locals with
  | [] => .ok ()
  | l :: rest =>
    if l.depth.elim false (fun d => d < scope_depth) then .ok ()
    else if l.name = name then
      .error (.compile "Already variable with this name in this scope." name_line)
    else shadowCheckRev rest scope_depth name name_line

/-- `Compiler::declare_variable`: in a local scope, check shadowing, bound
the local count, and push an (optionally still-undefined) local, yielding
slot byte 0; at global scope, intern the name in the constant pool. -/
def declare_variable (c : Compiler) (name_line : Nat) (name : String)
    (initialized : Bool) : Except CErr (Compiler × Nat) :=
  if c.scope_depth > 0 then
    match shadowCheckRev c.locals.reverse c.scope_depth name name_line with
    | .error e => .error e
    | .ok () =>
      if c.locals.length > 255 then
        .error (.compile "Too many local variables in function." name_line)
      else
        .ok ({ c with locals := c.locals ++
                 [{ name, depth := if initialized then some c.scope_depth else none,
                    is_captured := false }] }, 0)
  else c.make_constant name_line (.string name)

/-- `Compiler::define_variable`: mark the just-declared local as defined, or
emit `DefineGlobal`.  An empty locals vector panics in the source. -/
def define_variable (c : Compiler) (line : Nat) (global : Nat) : Except CErr Compiler :=
  if c.scope_depth > 0 then
    match c.locals.getLast? with
    | none => .error .panicked
    | some l =>
      .ok { c with locals := c.locals.dropLast ++ [{ l with depth := some c.scope_depth }] }
  else .ok (c.emit_with_arg line .DefineGlobal global)

/-- The backward search of `Compiler::resolve_local` (`rfind` over the
reversed list): a head at reversed position `p` of a reversal of length
`p + 1 + |rest|` has original index `|rest|`. -/
def rfindRev (rev_locals : List Local) (name : String) : Option (Nat × Local) :=
  match rev_locals with
  | [] => none
  | l :: rest => if l.name = name then some (rest.length, l) else rfindRev rest name

/-- `locals.iter().enumerate().rfind(...)`: the last local with the given
name, with its index. -/
def rfindLocal (locals : List Local) (name : String) : Option (Nat × Local) :=
  rfindRev locals.reverse name

/-- `Compiler::resolve_local`: a hit on a not-yet-defined local is the
self-initializer error, otherwise the slot index. -/
def resolve_local (c : Compiler) (line : Nat) (name : String) :
    Except CErr (Option Nat) :=
  match rfindLocal c.locals name with
  | none => .ok none
  | some (idx, l) =>
    match l.depth with
    | none => .error (.compile "Can't read local variable in its own initializer." line)
    | some _ => .ok (some idx)

/-- `Compiler::finalize`: append the implicit return, yield the chunk. -/
def finalize (c : Compiler) (line : Nat) : FunctionInner :=
  (c.emit_return line).function

/-- The parameter-declaration loop of the `Stmt::Fun` arm:
`declare_variable(line, param, true)` for each parameter in order. -/
def compile_params (c : Compiler) : List (Nat × String) → Except CErr Compiler
  | [] => .ok c
  | (line, param) :: rest =>
    match c.declare_variable line param true with
    | .error e => .error e
    | .ok (c, _) => compile_params c rest

end Compiler

/- `Compiler::compile_expr` and `Compiler::compile_stmt`
(`src/compiler.rs`), with the statement-list and argument-list loops as
mutual companions. -/
mutual

def compile_expr (c : Compiler) : Expr → Except CErr Compiler
  | .Assign (some _) _ _ _ => .error .panicked
  | .Assign none name name_line value =>
    match (match c.resolve_local name_line name with
           | .error e => .error e
           | .ok (some offset) => .ok (c, offset, OpCode.SetLocal)
           | .ok none =>
             match c.make_constant name_line (.string name) with
             | .error e => .error e
             | .ok (c, arg) => .ok (c, arg, OpCode.SetGlobal) :
           Except CErr (Compiler × Nat × OpCode)) with
    | .error e => .error e
    | .ok (c, arg, op) =>
      match compile_expr c value with
      | .error e => .error e
      | .ok c => .ok (c.emit_with_arg value.last_line op arg)
  | .Binary lhs .Or rhs =>
    match compile_expr c lhs with
    | .error e => .error e
    | .ok c =>
      match c.emit_jump lhs.last_line .JumpIfTruePeek with
      | (c, jump) =>
        match compile_expr (c.emit lhs.last_line .Pop) rhs with
        | .error e => .error e
        | .ok c => c.patch_jump rhs.last_line jump
  | .Binary lhs .And rhs =>
    match compile_expr c lhs with
    | .error e => .error e
    | .ok c =>
      match c.emit_jump lhs.last_line .JumpIfFalsePeek with
      | (c, jump) =>
        match compile_expr (c.emit lhs.last_line .Pop) rhs with
        | .error e => .error e
        | .ok c => c.patch_jump rhs.last_line jump
  | .Binary lhs op rhs =>
    match compile_expr c lhs with
    | .error e => .error e
    | .ok c =>
      match compile_expr c rhs with
      | .error e => .error e
      | .ok c =>
        match op with
        | .Or => .error .panicked
        | .And => .error .panicked
        | .NotEqual => .ok ((c.emit rhs.last_line .Equal).emit rhs.last_line .Not)
        | .Equal => .ok (c.emit rhs.last_line .Equal)
        | .Greater => .ok (c.emit rhs.last_line .Greater)
        | .GreaterEqual => .ok (c.emit rhs.last_line .GreaterEqual)
        | .Less => .ok (c.emit rhs.last_line .Less)
        | .LessEqual => .ok (c.emit rhs.last_line .LessEqual)
        | .Sub => .ok (c.emit rhs.last_line .Sub)
        | .Add => .ok (c.emit rhs.last_line .Add)
        | .Div => .ok (c.emit rhs.last_line .Div)
        | .Mul => .ok (c.emit rhs.last_line .Mul)
  | .Unary op inner =>
    match compile_expr c inner with
    | .error e => .error e
    | .ok c =>
      .ok (c.emit inner.last_line (match op with | .Not => OpCode.Not | .Neg => OpCode.Neg))
  | .Call rcpt args last_line =>
    if args.length > 255 then
      match args.get? 255 with
      | some a => .error (.compile "Can't have more than 255 arguments." a.last_line)
      | none => .error .panicked
    else
      match compile_expr c rcpt with
      | .error e => .error e
      | .ok c =>
        match compile_exprs c args with
        | .error e => .error e
        | .ok c => .ok (c.emit_with_arg last_line .Call args.length)
  | .True line => .ok (c.emit line .True)
  | .False line => .ok (c.emit line .False)
  | .Nil line => .ok (c.emit line .Nil)
  | .Number v line => c.emit_constant line .Constant (.number v)
  | .String v last => c.emit_constant last .Constant (.string v)
  | .Variable name line =>
    match c.resolve_local line name with
    | .error e => .error e
    | .ok (some offset) => .ok (c.emit_with_arg line .GetLocal offset)
    | .ok none =>
      match c.make_constant line (.string name) with
      | .error e => .error e
      | .ok (c, arg) => .ok (c.emit_with_arg line .GetGlobal arg)
termination_by e => sizeOf e

def compile_exprs (c : Compiler) : List Expr → Except CErr Compiler
  | [] => .ok c
  | e :: rest =>
    match compile_expr c e with
    | .error err => .error err
    | .ok c => compile_exprs c rest
termination_by l => sizeOf l

def compile_stmt (c : Compiler) : Stmt → Except CErr Compiler
  | .Var name name_line init last_line =>
    match c.declare_variable name_line name false with
    | .error e => .error e
    | .ok (c, global) =>
      match (match init with
             | some i => compile_expr c i
             | none => .ok (c.emit name_line .Nil)) with
      | .error e => .error e
      | .ok c => c.define_variable last_line global
  | .Expr expr last_line =>
    match compile_expr c expr with
    | .error e => .error e
    | .ok c => .ok (c.emit last_line .Pop)
  | .Fun name name_line params body last_line =>
    if params.length > 255 then
      match params.get? 255 with
      | some p => .error (.compile "Can't have more than 255 parameters." p.1)
      | none => .error .panicked
    else
      match c.declare_variable name_line name true with
      | .error e => .error e
      | .ok (c, global) =>
        let nested := Compiler.new .Function
        let nested := { nested with
          function := (FunctionInner.mk params.length nested.function.chunk
            nested.function.lines nested.function.constants (some name)) }
        match Compiler.compile_params nested params with
        | .error e => .error e
        | .ok nested =>
          match compile_stmts nested body with
          | .error e => .error e
          | .ok nested =>
            match c.emit_constant last_line .Closure (.function (nested.finalize last_line)) with
            | .error e => .error e
            | .ok c => c.define_variable last_line global
  | .If cond right_paren_line then_ (some else_) =>
    match compile_expr c cond with
    | .error e => .error e
    | .ok c =>
      match c.emit_jump right_paren_line .JumpIfFalsePop with
      | (c, then_jump) =>
        match compile_stmt c then_ with
        | .error e => .error e
        | .ok c =>
          match c.emit_jump then_.last_line .Jump with
          | (c, else_jump) =>
            match c.patch_jump then_.last_line then_jump with
            | .error e => .error e
            | .ok c =>
              match compile_stmt c else_ with
              | .error e => .error e
              | .ok c => c.patch_jump else_.last_line else_jump
  | .If cond right_paren_line then_ none =>
    match compile_expr c cond with
    | .error e => .error e
    | .ok c =>
      match c.emit_jump right_paren_line .JumpIfFalsePop with
      | (c, then_jump) =>
        match compile_stmt c then_ with
        | .error e => .error e
        | .ok c => c.patch_jump then_.last_line then_jump
  | .Print expr last_line =>
    match compile_expr c expr with
    | .error e => .error e
    | .ok c => .ok (c.emit last_line .Print)
  | .Return keyword_line expr last_line =>
    if c.fn_type = .Script then
      .error (.compile "Can't return from top-level code." keyword_line)
    else
      match expr with
      | some e =>
        if c.fn_type = .Initializer then
          .error (.compile "Can't return a vale from an initializer." keyword_line)
        else
          match compile_expr c e with
          | .error err => .error err
          | .ok c => .ok (c.emit last_line .Return)
      | none => .ok (c.emit_return last_line)
  | .While cond right_paren_line body =>
    match compile_expr c cond with
    | .error e => .error e
    | .ok c1 =>
      match c1.emit_jump right_paren_line .JumpIfFalsePop with
      | (c2, exit_jump) =>
        match compile_stmt c2 body with
        | .error e => .error e
        | .ok c3 =>
          match c3.emit_loop body.last_line c.function.chunk.length with
          | .error e => .error e
          | .ok c4 => c4.patch_jump body.last_line exit_jump
  | .Block stmts last_line =>
    match compile_stmts c.begin_scope stmts with
    | .error e => .error e
    | .ok c => c.end_scope last_line
termination_by s => sizeOf s

def compile_stmts (c : Compiler) : List Stmt → Except CErr Compiler
  | [] => .ok c
  | s :: rest =>
    match compile_stmt c s with
    | .error e => .error e
    | .ok c => compile_stmts c rest
termination_by l => sizeOf l

end

/-- `compile` (`src/compiler.rs`): compile a whole program into the
top-level script chunk. -/
def compile (body : List Stmt) : Except CErr FunctionInner :=
  let last_line := (body.getLast?).elim 0 Stmt.last_line
  match compile_stmts (Compiler.new .Script) body with
  | .error e => .error e
  | .ok c => .ok (c.finalize last_line)

/-- The compiler state produced by compiling `while (true) true;` from a
fresh script compiler. -/
def c5W : Compiler :=
  { function := (FunctionInner.mk 0 [29, 14, 5, 0, 29, 23, 18, 9, 0]
      [1, 1, 1, 1, 1, 1, 1, 1, 1] [] none),
    fn_type := .Script,
    locals := [{ name := "", depth := some 0, is_captured := false }],
    scope_depth := 0 }

/-! Basic lemmas about the stack and frame helpers. -/

theorem popS_concat (l : List Value) (v : Value) : popS (l ++ [v]) = some (v, l) := by
  simp [popS]

theorem peekS_concat (l : List Value) (v : Value) : peekS (l ++ [v]) 0 = some v := by
  simp [peekS, List.get?_concat_length]

theorem peekS_callee (pre args : List Value) (v : Value) :
    peekS (pre ++ v :: args) args.length = some v := by
  have hlen : (pre ++ v :: args).length = pre.length + args.length + 1 := by
    simp; omega
  have hidx : (pre ++ v :: args).length - 1 - args.length = pre.length := by
    rw [hlen]; omega
  have hlt : args.length < (pre ++ v :: args).length := by rw [hlen]; omega
  rw [peekS, if_pos hlt, hidx, List.get?_append_right (Nat.le_refl _)]
  simp

theorem as_number_number (n : F64) : (Value.number n).as_number = some n := rfl

theorem setLastFrame_length (frames : List CallFrame) (f f' : CallFrame)
    (h : frames.getLast? = some f) : (setLastFrame frames f').length = frames.length := by
  cases frames with
  | nil => simp at h
  | cons x xs => simp [setLastFrame]

/-- C8: the truthiness predicate (`Value::as_bool`) maps exactly Nil and
Bool(false) to falsey and every other value — including `Number 0`,
`Number NaN` and the empty string — to truthy; `Not` pushes its negation and
the three conditional jump opcodes (`JumpIfFalsePop`, `JumpIfFalsePeek`,
`JumpIfTruePeek`) take their jump exactly according to it. -/
theorem c8_truthiness :
    (∀ v : Value, v.as_bool = false ↔ (v = .nil ∨ v = .bool false)) ∧
    ((Value.number F64.zero).as_bool = true) ∧
    ((Value.number F64.nan).as_bool = true) ∧
    ((Value.string "").as_bool = true) ∧
    (∀ s f fn' v stk1, popS s.stack = some (v, stk1) →
      execInstr s f fn' .Not =
        .ok { s with frames := setLastFrame s.frames ({ f with ip := f.ip + 1 }),
                     stack := push stk1 (.bool (!v.as_bool)) }) ∧
    (∀ s f fn' b1 b2 v stk1,
      fn'.chunk[f.ip + 1]? = some b1 → fn'.chunk[f.ip + 2]? = some b2 →
      popS s.stack = some (v, stk1) →
      execInstr s f fn' .JumpIfFalsePop =
        .ok { s with
              frames := setLastFrame s.frames ({ f with ip := f.ip + 3 + (if v.as_bool then 0 else b1 + 256 * b2) }),
              stack := stk1 }) ∧
    (∀ s f fn' b1 b2 v,
      fn'.chunk[f.ip + 1]? = some b1 → fn'.chunk[f.ip + 2]? = some b2 →
      peekS s.stack 0 = some v →
      execInstr s f fn' .JumpIfFalsePeek =
        .ok { s with frames := setLastFrame s.frames ({ f with ip := f.ip + 3 + (if v.as_bool then 0 else b1 + 256 * b2) }) }) ∧
    (∀ s f fn' b1 b2 v,
      fn'.chunk[f.ip + 1]? = some b1 → fn'.chunk[f.ip + 2]? = some b2 →
      peekS s.stack 0 = some v →
      execInstr s f fn' .JumpIfTruePeek =
        .ok { s with frames := setLastFrame s.frames ({ f with ip := f.ip + 3 + (if v.as_bool then b1 + 256 * b2 else 0) }) }) := by
  refine ⟨?_, rfl, rfl, rfl, ?_, ?_, ?_, ?_⟩
  · intro v
    cases v <;> simp [Value.as_bool]
  · intro s f fn' v stk1 hpop
    simp [execInstr, hpop]
  · intro s f fn' b1 b2 v stk1 h1 h2 hpop
    simp [execInstr, h1, h2, hpop]
  · intro s f fn' b1 b2 v h1 h2 hpeek
    simp [execInstr, h1, h2, hpeek]
  · intro s f fn' b1 b2 v h1 h2 hpeek
    simp [execInstr, h1, h2, hpeek]

/-- Witness for C8: executing `JumpIfFalsePop` over `nil` (falsey) at a
concrete state takes the jump of 2 and pops the operand. -/
theorem c8_truthiness_witness :
    execInstr ⟨[⟨0, 0, 0⟩], [.nil], [], [.mk 0 [14, 2, 0] [1, 1, 1] [] none], [], F64.zero⟩
        ⟨0, 0, 0⟩ (.mk 0 [14, 2, 0] [1, 1, 1] [] none) .JumpIfFalsePop =
      .ok { (⟨[⟨0, 0, 0⟩], [.nil], [], [.mk 0 [14, 2, 0] [1, 1, 1] [] none], [], F64.zero⟩ : VmState) with
            frames := setLastFrame [⟨0, 0, 0⟩]
              ({ (⟨0, 0, 0⟩ : CallFrame) with ip := 0 + 3 + (if (Value.nil).as_bool then 0 else 2 + 256 * 0) }),
            stack := [] } :=
  c8_truthiness.2.2.2.2.2.1
    ⟨[⟨0, 0, 0⟩], [.nil], [], [.mk 0 [14, 2, 0] [1, 1, 1] [] none], [], F64.zero⟩
    ⟨0, 0, 0⟩ (.mk 0 [14, 2, 0] [1, 1, 1] [] none) 2 0 .nil [] rfl rfl rfl

/-- C2 counterexample: the claim states that NativeFn values compare equal by
identity of the registered slot, so two references to the registered native
in slot 0 (`clock`) would compare equal; the source's `PartialEq` has no
`NativeFn` arm and falls into the catch-all `false`. -/
theorem c2_nativeFnEq_counterexample :
    Value.eq (.nativeFn 0) (.nativeFn 0) ≠ true := by
  simp [Value.eq]

/-- C2 (amended): the equality used by the `Equal` opcode: values of
different tags are unequal; Nil equals Nil; Bool and Number compare by value
(NaN is unequal to NaN, `0.0` equals `-0.0`); String compares by content;
Closure compares by pointer identity; Function and NativeFn values are never
equal (even to themselves — the source's `PartialEq` has no arm for them);
and the `Equal` opcode pushes exactly this relation of the two popped
operands. -/
theorem c2_value_eq :
    (∀ v w : Value, v.tag ≠ w.tag → Value.eq v w = false) ∧
    (Value.eq .nil .nil = true) ∧
    (∀ a b, Value.eq (.bool a) (.bool b) = (a == b)) ∧
    (∀ x y, Value.eq (.number x) (.number y) = F64.beq x y) ∧
    (F64.beq .nan .nan = false) ∧
    (F64.beq F64.zero F64.negZero = true) ∧
    (∀ a b, Value.eq (.string a) (.string b) = (a == b)) ∧
    (∀ i j, Value.eq (.closure i) (.closure j) = (i == j)) ∧
    (∀ f g, Value.eq (.function f) (.function g) = false) ∧
    (∀ i j, Value.eq (.nativeFn i) (.nativeFn j) = false) ∧
    (∀ s f fn' rhs lhs stk1 stk2,
      popS s.stack = some (rhs, stk1) → popS stk1 = some (lhs, stk2) →
      execInstr s f fn' .Equal =
        .ok { s with frames := setLastFrame s.frames ({ f with ip := f.ip + 1 }),
                     stack := push stk2 (.bool (Value.eq lhs rhs)) }) := by
  refine ⟨?_, rfl, ?_, ?_, rfl, by decide, ?_, ?_, ?_, ?_, ?_⟩
  · intro v w h
    cases v <;> cases w <;> simp [Value.tag] at h ⊢ <;> simp [Value.eq]
  · intro a b; rfl
  · intro x y; rfl
  · intro a b; rfl
  · intro i j; rfl
  · intro f g; rfl
  · intro i j; rfl
  · intro s f fn' rhs lhs stk1 stk2 h1 h2
    simp [execInstr, h1, h2]

/-- Witness for C2: two different-tag values (`nil` and `true`) compare
unequal, and the `Equal` opcode at a concrete two-value stack pushes the
comparison result. -/
theorem c2_value_eq_witness :
    Value.eq .nil (.bool true) = false ∧
    execInstr ⟨[⟨0, 0, 0⟩], [.nil, .bool true], [], [.mk 0 [6] [1] [] none], [], F64.zero⟩
        ⟨0, 0, 0⟩ (.mk 0 [6] [1] [] none) .Equal =
      .ok { (⟨[⟨0, 0, 0⟩], [.nil, .bool true], [], [.mk 0 [6] [1] [] none], [], F64.zero⟩ : VmState) with
            frames := setLastFrame [⟨0, 0, 0⟩] ({ (⟨0, 0, 0⟩ : CallFrame) with ip := 0 + 1 }),
            stack := push [] (.bool (Value.eq .nil (.bool true))) } :=
  ⟨c2_value_eq.1 .nil (.bool true) (by simp [Value.tag]),
   c2_value_eq.2.2.2.2.2.2.2.2.2.2
     ⟨[⟨0, 0, 0⟩], [.nil, .bool true], [], [.mk 0 [6] [1] [] none], [], F64.zero⟩
     ⟨0, 0, 0⟩ (.mk 0 [6] [1] [] none) (.bool true) .nil [.nil] [] rfl rfl⟩

/-- C6: the `Add` opcode pops rhs then lhs; two Numbers push their sum, two
Strings push the concatenation lhs-then-rhs, and every other pairing raises
exactly "Operands must be two numbers or two strings." (the two `ok` cases
raise nothing). -/
theorem c6_add :
    ∀ s f fn' rhs lhs stk1 stk2,
      popS s.stack = some (rhs, stk1) → popS stk1 = some (lhs, stk2) →
      (∀ a b, lhs = .number a → rhs = .number b →
        execInstr s f fn' .Add =
          .ok { s with frames := setLastFrame s.frames ({ f with ip := f.ip + 1 }),
                       stack := push stk2 (.number (a.add b)) }) ∧
      (∀ a b, lhs = .string a → rhs = .string b →
        execInstr s f fn' .Add =
          .ok { s with frames := setLastFrame s.frames ({ f with ip := f.ip + 1 }),
                       stack := push stk2 (.string (a ++ b)) }) ∧
      ((lhs.as_number = none ∨ rhs.as_number = none) →
       (lhs.as_string = none ∨ rhs.as_string = none) →
        execInstr s f fn' .Add =
          .err "Operands must be two numbers or two strings."
              { s with frames := setLastFrame s.frames ({ f with ip := f.ip + 1 }),
                       stack := stk2 }) := by
  intro s f fn' rhs lhs stk1 stk2 h1 h2
  refine ⟨?_, ?_, ?_⟩
  · intro a b ha hb
    subst ha; subst hb
    simp [execInstr, h1, h2]
  · intro a b ha hb
    subst ha; subst hb
    simp [execInstr, h1, h2]
  · intro hnum hstr
    cases lhs <;> cases rhs <;>
      simp [Value.as_number, Value.as_string] at hnum hstr ⊢ <;>
      simp [execInstr, h1, h2]

/-- Witness for C6: adding `nil` to `nil` at a concrete two-value stack
raises "Operands must be two numbers or two strings.". -/
theorem c6_add_witness :
    execInstr ⟨[⟨0, 0, 0⟩], [.nil, .nil], [], [.mk 0 [0] [1] [] none], [], F64.zero⟩
        ⟨0, 0, 0⟩ (.mk 0 [0] [1] [] none) .Add =
      .err "Operands must be two numbers or two strings."
        { (⟨[⟨0, 0, 0⟩], [.nil, .nil], [], [.mk 0 [0] [1] [] none], [], F64.zero⟩ : VmState) with
          frames := setLastFrame [⟨0, 0, 0⟩] ({ (⟨0, 0, 0⟩ : CallFrame) with ip := 0 + 1 }),
          stack := [] } :=
  (c6_add ⟨[⟨0, 0, 0⟩], [.nil, .nil], [], [.mk 0 [0] [1] [] none], [], F64.zero⟩
      ⟨0, 0, 0⟩ (.mk 0 [0] [1] [] none) .nil .nil [.nil] [] rfl rfl).2.2
    (Or.inl rfl) (Or.inl rfl)

/-- C9: the `Div` opcode never errors on two Number operands — it pushes the
IEEE-754 quotient with no zero-divisor check, so a nonzero finite dividend
over a (signed) zero is a signed infinity and `0/0` is NaN — and raises
"Operands must be numbers." exactly when a popped operand is not a Number
(the right operand is examined first). -/
theorem c9_div :
    (∀ s f fn' rhs lhs stk1 stk2,
      popS s.stack = some (rhs, stk1) → popS stk1 = some (lhs, stk2) →
      (∀ a b, lhs = .number a → rhs = .number b →
        execInstr s f fn' .Div =
          .ok { s with frames := setLastFrame s.frames ({ f with ip := f.ip + 1 }),
                       stack := push stk2 (.number (a.div b)) }) ∧
      (rhs.as_number = none →
        execInstr s f fn' .Div =
          .err "Operands must be numbers."
              { s with frames := setLastFrame s.frames ({ f with ip := f.ip + 1 }),
                       stack := stk1 }) ∧
      (∀ b, rhs = .number b → lhs.as_number = none →
        execInstr s f fn' .Div =
          .err "Operands must be numbers."
              { s with frames := setLastFrame s.frames ({ f with ip := f.ip + 1 }),
                       stack := stk2 })) ∧
    (∀ sign m, m ≠ 0 → F64.div (.fin sign m) F64.zero = .inf sign) ∧
    (∀ sign m, m ≠ 0 → F64.div (.fin sign m) F64.negZero = .inf (!sign)) ∧
    (F64.div F64.zero F64.zero = .nan) ∧
    (F64.div F64.negZero F64.zero = .nan) := by
  refine ⟨?_, ?_, ?_, by simp [F64.div, F64.zero], by simp [F64.div, F64.zero, F64.negZero]⟩
  · intro s f fn' rhs lhs stk1 stk2 h1 h2
    refine ⟨?_, ?_, ?_⟩
    · intro a b ha hb
      subst ha; subst hb
      simp [execInstr, numBinOp, h1, h2, Value.as_number]
    · intro hb
      simp [execInstr, numBinOp, h1, hb]
    · intro b hb ha
      subst hb
      simp [execInstr, numBinOp, h1, h2, ha, as_number_number]
  · intro sign m hm
    cases sign <;> simp [F64.div, F64.zero, hm]
  · intro sign m hm
    cases sign <;> simp [F64.div, F64.negZero, hm]

/-- Witness for C9: dividing `Number 1` by `Number 0` at a concrete state
pushes `1/0 = +∞` and raises nothing. -/
theorem c9_div_witness :
    execInstr ⟨[⟨0, 0, 0⟩], [.number F64.one, .number F64.zero], [], [.mk 0 [5] [1] [] none], [], F64.zero⟩
        ⟨0, 0, 0⟩ (.mk 0 [5] [1] [] none) .Div =
      .ok { (⟨[⟨0, 0, 0⟩], [.number F64.one, .number F64.zero], [], [.mk 0 [5] [1] [] none], [], F64.zero⟩ : VmState) with
            frames := setLastFrame [⟨0, 0, 0⟩] ({ (⟨0, 0, 0⟩ : CallFrame) with ip := 0 + 1 }),
            stack := push [] (.number (F64.one.div F64.zero)) } :=
  ((c9_div.1 ⟨[⟨0, 0, 0⟩], [.number F64.one, .number F64.zero], [], [.mk 0 [5] [1] [] none], [], F64.zero⟩
      ⟨0, 0, 0⟩ (.mk 0 [5] [1] [] none) (.number F64.zero) (.number F64.one)
      [.number F64.one] [] rfl rfl).1 F64.one F64.zero rfl rfl)

/-- C10: calling a native function never checks arity: for every argument
count `argc` with the callee and `argc` arguments on the stack, a `NativeFn`
callee (slot 0, `clock`) succeeds — the top `argc` values and the callee are
removed and the native's result, a Number (the clock reading), is pushed.
Without that many stack values the source panics by usize underflow
(modelled `stuck`), never raising the arity error.  The "Expected A
arguments but got B." check applies only to Closure callees. -/
theorem c10_native_arity :
    (∀ s argc, argc < s.stack.length →
      call_value s (.nativeFn 0) argc =
        .ok { s with stack := push (s.stack.take (s.stack.length - argc - 1))
                             (.number s.clock) }) ∧
    (∀ s argc, s.stack.length ≤ argc →
      call_value s (.nativeFn 0) argc = .stuck) ∧
    (∀ s id argc cfn, s.closures.get? id = some cfn → argc ≠ cfn.arity →
      call s id argc =
        .err ("Expected " ++ toString cfn.arity ++ " arguments but got " ++
              toString argc ++ ".") s) := by
  refine ⟨?_, ?_, ?_⟩
  · intro s argc hlt
    simp only [call_value, if_neg (Nat.not_le.mpr hlt), nativeCall]
  · intro s argc hle
    simp only [call_value, if_pos hle]
  · intro s id argc cfn hget hne
    simp only [call, hget, if_pos hne]

/-- Witness for C10: `clock` called with 3 arguments on a 4-value stack
succeeds and returns the clock reading, with 4 arguments it hits the panic
path, while a zero-arity closure called with 3 arguments raises the arity
error. -/
theorem c10_native_arity_witness :
    call_value ⟨[], [.nativeFn 0, .nil, .nil, .nil], [], [], [], F64.one⟩ (.nativeFn 0) 3 =
      .ok { (⟨[], [.nativeFn 0, .nil, .nil, .nil], [], [], [], F64.one⟩ : VmState) with
            stack := push (([.nativeFn 0, .nil, .nil, .nil] : List Value).take (4 - 3 - 1))
                          (.number F64.one) } ∧
    call_value ⟨[], [.nativeFn 0, .nil, .nil, .nil], [], [], [], F64.one⟩ (.nativeFn 0) 4 =
      .stuck ∧
    call ⟨[], [.closure 0, .nil, .nil, .nil], [], [.mk 0 [] [] [] none], [], F64.one⟩ 0 3 =
      .err ("Expected " ++ toString (0 : Nat) ++ " arguments but got " ++
            toString (3 : Nat) ++ ".")
          ⟨[], [.closure 0, .nil, .nil, .nil], [], [.mk 0 [] [] [] none], [], F64.one⟩ :=
  ⟨c10_native_arity.1 ⟨[], [.nativeFn 0, .nil, .nil, .nil], [], [], [], F64.one⟩ 3 (by decide),
   c10_native_arity.2.1 ⟨[], [.nativeFn 0, .nil, .nil, .nil], [], [], [], F64.one⟩ 4 (by decide),
   c10_native_arity.2.2 ⟨[], [.closure 0, .nil, .nil, .nil], [], [.mk 0 [] [] [] none], [], F64.one⟩
     0 3 (.mk 0 [] [] [] none) rfl (by decide)⟩

/-! Lemmas about the globals map operations. -/

theorem insertG_fst (g : List (String × Value)) (n : String) (v : Value) :
    (insertG g n v).1 = lookupG g n := by
  induction g with
  | nil => rfl
  | cons p rest ih =>
    obtain ⟨k, w⟩ := p
    by_cases h : k = n <;> simp [insertG, lookupG, h, ih]

theorem lookupG_insertG_self (g : List (String × Value)) (n : String) (v : Value) :
    lookupG (insertG g n v).2 n = some v := by
  induction g with
  | nil => simp [insertG, lookupG]
  | cons p rest ih =>
    obtain ⟨k, w⟩ := p
    by_cases h : k = n <;> simp [insertG, lookupG, h, ih]

theorem lookupG_insertG_ne (g : List (String × Value)) (n : String) (v : Value)
    (m : String) (h : m ≠ n) :
    lookupG (insertG g n v).2 m = lookupG g m := by
  induction g with
  | nil => simp [insertG, lookupG, Ne.symm h]
  | cons p rest ih =>
    obtain ⟨k, w⟩ := p
    by_cases hk : k = n
    · subst hk
      simp [insertG, lookupG, Ne.symm h]
    · simp only [insertG, if_neg hk]
      simp [lookupG, ih]

theorem insertG_length_of_mem (g : List (String × Value)) (n : String) (v w : Value)
    (h : lookupG g n = some w) : (insertG g n v).2.length = g.length := by
  induction g with
  | nil => simp [lookupG] at h
  | cons p rest ih =>
    obtain ⟨k, u⟩ := p
    by_cases hk : k = n
    · simp [insertG, hk]
    · simp [lookupG, hk] at h
      simp [insertG, hk, ih h]

theorem removeG_insertG (g : List (String × Value)) (n : String) (v : Value)
    (h : lookupG g n = none) : removeG (insertG g n v).2 n = g := by
  induction g with
  | nil => simp [insertG, removeG]
  | cons p rest ih =>
    obtain ⟨k, u⟩ := p
    by_cases hk : k = n
    · simp [lookupG, hk] at h
    · simp [lookupG, hk] at h
      simp [insertG, removeG, hk, ih h]

/-- C3: `SetGlobal k` raises "Undefined variable '<name>'." exactly when the
globals map has no entry for the name at `constants[k]`; an existing entry is
overwritten in place (same number of bindings, other names untouched); on the
error path the transiently inserted entry is removed again, leaving the
globals exactly as before.  The value is peeked, not popped, in both cases. -/
theorem c3_set_global :
    ∀ s f fn' k name v,
      fn'.chunk[f.ip + 1]? = some k →
      fn'.constants[k]? = some (.string name) →
      peekS s.stack 0 = some v →
      ((lookupG s.globals name = none →
        execInstr s f fn' .SetGlobal =
          .err ("Undefined variable '" ++ name ++ "'.")
              { s with frames := setLastFrame s.frames ({ f with ip := f.ip + 2 }) }) ∧
       (∀ w, lookupG s.globals name = some w →
        execInstr s f fn' .SetGlobal =
          .ok { s with frames := setLastFrame s.frames ({ f with ip := f.ip + 2 }),
                       globals := (insertG s.globals name v).2 } ∧
        lookupG (insertG s.globals name v).2 name = some v ∧
        (insertG s.globals name v).2.length = s.globals.length ∧
        (∀ m, m ≠ name → lookupG (insertG s.globals name v).2 m = lookupG s.globals m))) := by
  intro s f fn' k name v hk hc hpeek
  constructor
  · intro hnone
    simp [execInstr, hk, hc, hpeek, Value.as_string, insertG_fst, hnone,
          removeG_insertG s.globals name v hnone]
  · intro w hsome
    refine ⟨?_, lookupG_insertG_self _ _ _, insertG_length_of_mem _ _ _ _ hsome,
            fun m hm => lookupG_insertG_ne _ _ _ _ hm⟩
    simp [execInstr, hk, hc, hpeek, Value.as_string, insertG_fst, hsome]

/-- Witness for C3: assigning to the undefined global `a` at a concrete state
raises "Undefined variable 'a'." with the globals untouched, and assigning to
the defined global `clock` overwrites it. -/
theorem c3_set_global_witness :
    (execInstr ⟨[⟨0, 0, 0⟩], [.nil], [("clock", .nativeFn 0)], [.mk 0 [26, 0] [1, 1] [.string "a"] none], [], F64.zero⟩
        ⟨0, 0, 0⟩ (.mk 0 [26, 0] [1, 1] [.string "a"] none) .SetGlobal =
      .err ("Undefined variable '" ++ "a" ++ "'.")
          { (⟨[⟨0, 0, 0⟩], [.nil], [("clock", .nativeFn 0)], [.mk 0 [26, 0] [1, 1] [.string "a"] none], [], F64.zero⟩ : VmState) with
            frames := setLastFrame [⟨0, 0, 0⟩] ({ (⟨0, 0, 0⟩ : CallFrame) with ip := 0 + 2 }) }) ∧
    (execInstr ⟨[⟨0, 0, 0⟩], [.nil], [("clock", .nativeFn 0)], [.mk 0 [26, 0] [1, 1] [.string "clock"] none], [], F64.zero⟩
        ⟨0, 0, 0⟩ (.mk 0 [26, 0] [1, 1] [.string "clock"] none) .SetGlobal =
      .ok { (⟨[⟨0, 0, 0⟩], [.nil], [("clock", .nativeFn 0)], [.mk 0 [26, 0] [1, 1] [.string "clock"] none], [], F64.zero⟩ : VmState) with
            frames := setLastFrame [⟨0, 0, 0⟩] ({ (⟨0, 0, 0⟩ : CallFrame) with ip := 0 + 2 }),
            globals := (insertG [("clock", .nativeFn 0)] "clock" .nil).2 }) :=
  ⟨(c3_set_global ⟨[⟨0, 0, 0⟩], [.nil], [("clock", .nativeFn 0)], [.mk 0 [26, 0] [1, 1] [.string "a"] none], [], F64.zero⟩
      ⟨0, 0, 0⟩ (.mk 0 [26, 0] [1, 1] [.string "a"] none) 0 "a" .nil rfl rfl rfl).1
     (by simp [lookupG]),
   ((c3_set_global ⟨[⟨0, 0, 0⟩], [.nil], [("clock", .nativeFn 0)], [.mk 0 [26, 0] [1, 1] [.string "clock"] none], [], F64.zero⟩
      ⟨0, 0, 0⟩ (.mk 0 [26, 0] [1, 1] [.string "clock"] none) 0 "clock" .nil rfl rfl rfl).2
     (.nativeFn 0) (by simp [lookupG])).1⟩

/-- C1 (code bug): the serialization round trip fails on any chunk with a
nonempty String constant (or nonempty function name).  `Value::read` reads
string payloads with `read_exact` into a `Vec::with_capacity(len)` buffer,
whose length is 0 — zero bytes are consumed, the string decodes empty, and
the unconsumed payload bytes desynchronize the stream.  For the script chunk
with constant pool `[String "a"]` and empty code, reading back the written
bytes consumes the payload byte `0x61` as the low byte of the code length
(97), then fails with UnexpectedEof; the result is an error, not the chunk. -/
theorem c1_roundtrip_fails :
    Ser.roundTripScript (.mk 0 [] [] [.string [97]] none) = some (.error .eof) ∧
    (∀ rest, Ser.roundTripScript (.mk 0 [] [] [.string [97]] none) ≠
      some (.ok (.mk 0 [] [] [.string [97]] none, rest))) := by
  have h1 : Ser.roundTripScript (.mk 0 [] [] [.string [97]] none) = some (.error .eof) := by
    simp [Ser.roundTripScript, Ser.FunctionInner.write, Ser.Value.write,
          Ser.constantsWrite, Ser.FunctionInner.read, Ser.Value.read,
          Ser.constantsRead, Ser.readU8, Ser.readLE, Ser.readExact,
          Ser.linesRead, Ser.leVal, Ser.leBytes, Ser.rleLines]
  refine ⟨h1, fun rest hcontra => ?_⟩
  rw [h1] at hcontra
  simp at hcontra

/-- Frame-stack effect of one dispatched instruction: every arm leaves the
frame count unchanged or (`Return`) lowers it, except a successful `Call` of
a closure, which adds exactly one frame and only after the `FRAMES_MAX`
check. -/
theorem execInstr_frames_cases (s : VmState) (f : CallFrame) (fn' : FunctionInner)
    (op : OpCode) (s' : VmState) (hf : s.frames.getLast? = some f)
    (h : execInstr s f fn' op = .ok s') :
    s'.frames.length ≤ s.frames.length ∨
      (op = .Call ∧ s'.frames.length = s.frames.length + 1 ∧
        s.frames.length ≠ FRAMES_MAX) := by
  have hlen : ∀ f', (setLastFrame s.frames f').length = s.frames.length :=
    fun f' => setLastFrame_length s.frames f f' hf
  cases op
  case Call =>
    simp only [execInstr, call_value, call] at h
    repeat' split at h
    all_goals try exact StepOut.noConfusion h
    · injection h with h
      subst h
      rename_i hargs hmax hguard
      right
      refine ⟨rfl, ?_, ?_⟩
      · simp [hlen]
      · intro hc
        exact hmax (by rw [hlen]; exact hc)
    · injection h with h
      subst h
      left
      simp [hlen]
  all_goals
    simp only [execInstr, numBinOp] at h <;>
    (repeat' split at h) <;>
    first
      | exact StepOut.noConfusion h
      | (injection h with h; subst h; left; simp [hlen])

/-- One successful VM step keeps the frame count within `FRAMES_MAX`. -/
theorem step_frames_le (s s' : VmState) (h : step s = .ok s')
    (h64 : s.frames.length ≤ FRAMES_MAX) : s'.frames.length ≤ FRAMES_MAX := by
  unfold step at h
  cases hf : s.frames.getLast? with
  | none => simp only [hf] at h; exact StepOut.noConfusion h
  | some f =>
    simp only [hf] at h
    cases hfn : s.closures.get? f.closureId with
    | none => simp only [hfn] at h; exact StepOut.noConfusion h
    | some fn' =>
      simp only [hfn] at h
      cases hb : fn'.chunk.get? f.ip with
      | none => simp only [hb] at h; exact StepOut.noConfusion h
      | some b =>
        simp only [hb] at h
        cases hop : OpCode.ofU8? b with
        | none => simp only [hop] at h; exact StepOut.noConfusion h
        | some op =>
          simp only [hop] at h
          rcases execInstr_frames_cases s f fn' op s' hf h with hle | ⟨_, heq, hne⟩
          · omega
          · simp only [FRAMES_MAX] at *
            omega

/-- `Vm::interpret` starts execution with exactly one call frame. -/
theorem interpretStart_frames (fn0 : FunctionInner) (t : F64) (s0 : VmState)
    (h : interpretStart fn0 t = .ok s0) : s0.frames.length = 1 := by
  simp only [interpretStart, initVm, call, List.get?] at h
  repeat' split at h
  all_goals try exact StepOut.noConfusion h
  injection h with h
  subst h
  rfl

/-- C7: from the state `interpret` starts in, every reachable VM state holds
at most `FRAMES_MAX = 64` call frames; a call of a matching-arity closure
with the frame stack full raises "Stack overflow." and pushes nothing; and no
opcode other than `Call` grows the frame stack. -/
theorem c7_frames_bound :
    (∀ fn0 t s0, interpretStart fn0 t = .ok s0 →
      ∀ s, Reach s0 s → s.frames.length ≤ FRAMES_MAX) ∧
    (∀ s id argc cfn, s.closures.get? id = some cfn → argc = cfn.arity →
      s.frames.length = FRAMES_MAX →
      call s id argc = .err "Stack overflow." s) ∧
    (∀ s f fn' op s', s.frames.getLast? = some f → op ≠ .Call →
      execInstr s f fn' op = .ok s' → s'.frames.length ≤ s.frames.length) := by
  refine ⟨?_, ?_, ?_⟩
  · intro fn0 t s0 hinit s hreach
    induction hreach with
    | refl =>
      rw [interpretStart_frames fn0 t s0 hinit]
      simp [FRAMES_MAX]
    | tail _ hstep ih => exact step_frames_le _ _ hstep ih
  · intro s id argc cfn hget hargc hfull
    simp only [call, hget, hargc, hfull]
    simp
  · intro s f fn' op s' hf hop h
    rcases execInstr_frames_cases s f fn' op s' hf h with hle | ⟨hcall, _, _⟩
    · exact hle
    · exact absurd hcall hop

/-- Witness for C7: the state `interpret` builds for a trivial script chunk
reaches itself with one frame (≤ 64), and a `call` of the zero-arity closure
0 with 64 frames already on the stack raises "Stack overflow.". -/
theorem c7_frames_bound_witness :
    (⟨[⟨0, 0, 0⟩], [.closure 0], [("clock", .nativeFn 0)], [.mk 0 [21, 25] [1, 1] [] none], [], F64.zero⟩ : VmState).frames.length ≤ FRAMES_MAX ∧
    call ⟨List.replicate 64 ⟨0, 0, 0⟩, [.closure 0], [], [.mk 0 [21, 25] [1, 1] [] none], [], F64.zero⟩ 0 0 =
      .err "Stack overflow."
        ⟨List.replicate 64 ⟨0, 0, 0⟩, [.closure 0], [], [.mk 0 [21, 25] [1, 1] [] none], [], F64.zero⟩ :=
  ⟨c7_frames_bound.1 (.mk 0 [21, 25] [1, 1] [] none) F64.zero
      ⟨[⟨0, 0, 0⟩], [.closure 0], [("clock", .nativeFn 0)], [.mk 0 [21, 25] [1, 1] [] none], [], F64.zero⟩
      rfl _ Relation.ReflTransGen.refl,
   c7_frames_bound.2.1
      ⟨List.replicate 64 ⟨0, 0, 0⟩, [.closure 0], [], [.mk 0 [21, 25] [1, 1] [] none], [], F64.zero⟩
      0 0 (.mk 0 [21, 25] [1, 1] [] none) rfl rfl (by simp [FRAMES_MAX])⟩

/-! Chunk-shape lemmas for the compiler helpers. -/

namespace Compiler

theorem add_code_chunk (c : Compiler) (l b : Nat) :
    (c.add_code l b).function.chunk = c.function.chunk ++ [b] := by
  simp [add_code, FunctionInner.chunk]

theorem emit_chunk (c : Compiler) (l : Nat) (op : OpCode) :
    (c.emit l op).function.chunk = c.function.chunk ++ [op.toU8] := by
  simp [emit, add_code_chunk]

theorem emit_with_arg_chunk (c : Compiler) (l : Nat) (op : OpCode) (arg : Nat) :
    (c.emit_with_arg l op arg).function.chunk = c.function.chunk ++ [op.toU8, arg] := by
  simp [emit_with_arg, emit_chunk, add_code_chunk]

theorem le_add_code (c : Compiler) (l b : Nat) :
    c.function.chunk.length ≤ (c.add_code l b).function.chunk.length := by
  simp [add_code_chunk]

theorem le_emit (c : Compiler) (l : Nat) (op : OpCode) :
    c.function.chunk.length ≤ (c.emit l op).function.chunk.length := by
  simp [emit_chunk]

theorem le_emit_with_arg (c : Compiler) (l : Nat) (op : OpCode) (arg : Nat) :
    c.function.chunk.length ≤ (c.emit_with_arg l op arg).function.chunk.length := by
  simp [emit_with_arg_chunk]

theorem make_constant_ok (c : Compiler) (l : Nat) (v : Value) (p : Compiler × Nat)
    (h : c.make_constant l v = .ok p) : p.1.function.chunk = c.function.chunk := by
  simp only [make_constant, add_constant] at h
  split at h
  · injection h with h
    subst h
    simp [FunctionInner.chunk]
  · exact Except.noConfusion h

theorem emit_constant_ok (c : Compiler) (l : Nat) (op : OpCode) (v : Value)
    (c' : Compiler) (h : c.emit_constant l op v = .ok c') :
    ∃ arg, c'.function.chunk = c.function.chunk ++ [op.toU8, arg] := by
  simp only [emit_constant] at h
  split at h
  · exact Except.noConfusion h
  · rename_i c1 idx heq
    injection h with h
    subst h
    exact ⟨idx, by rw [emit_with_arg_chunk, make_constant_ok c l v (c1, idx) heq]⟩

theorem le_emit_constant (c : Compiler) (l : Nat) (op : OpCode) (v : Value)
    (c' : Compiler) (h : c.emit_constant l op v = .ok c') :
    c.function.chunk.length ≤ c'.function.chunk.length := by
  obtain ⟨arg, harg⟩ := emit_constant_ok c l op v c' h
  simp [harg]

theorem emit_jump_chunk (c : Compiler) (l : Nat) (op : OpCode) :
    (c.emit_jump l op).1.function.chunk = c.function.chunk ++ [op.toU8, 0, 0] ∧
    (c.emit_jump l op).2 = c.function.chunk.length + 1 := by
  constructor
  · simp [emit_jump, emit_chunk, add_code_chunk]
  · simp [emit_jump, emit_chunk, add_code_chunk]

theorem patch_jump_ok_len (c : Compiler) (l i : Nat) (c' : Compiler)
    (h : c.patch_jump l i = .ok c') :
    c'.function.chunk.length = c.function.chunk.length := by
  simp only [patch_jump] at h
  split at h
  · injection h with h
    subst h
    simp [FunctionInner.chunk]
  · exact Except.noConfusion h

theorem patch_jump_ok_get (c : Compiler) (l i : Nat) (c' : Compiler)
    (h : c.patch_jump l i = .ok c') (j : Nat) (hj1 : j ≠ i) (hj2 : j ≠ i + 1) :
    c'.function.chunk[j]? = c.function.chunk[j]? := by
  simp only [patch_jump] at h
  split at h
  · injection h with h
    subst h
    simp only [FunctionInner.chunk]
    rw [List.getElem?_set_ne (fun he => hj2 he.symm), List.getElem?_set_ne (fun he => hj1 he.symm)]
  · exact Except.noConfusion h

theorem emit_loop_ok (c : Compiler) (l ls : Nat) (c' : Compiler)
    (h : c.emit_loop l ls = .ok c') :
    c'.function.chunk = c.function.chunk ++
      [OpCode.Loop.toU8, (c.function.chunk.length + 1 - ls + 2) % 256,
       (c.function.chunk.length + 1 - ls + 2) / 256 % 256] ∧
    c.function.chunk.length + 1 - ls + 2 ≤ 65535 := by
  simp only [emit_loop, emit_chunk] at h
  split at h
  · rename_i hle
    injection h with h
    subst h
    simp only [add_code_chunk, emit_chunk] at hle ⊢
    constructor
    · simp
    · simpa using hle
  · exact Except.noConfusion h

theorem declare_variable_ok (c : Compiler) (nl : Nat) (n : String) (ini : Bool)
    (p : Compiler × Nat) (h : c.declare_variable nl n ini = .ok p) :
    p.1.function.chunk = c.function.chunk := by
  simp only [declare_variable] at h
  split at h
  · split at h
    · exact Except.noConfusion h
    · split at h
      · exact Except.noConfusion h
      · injection h with h
        subst h
        rfl
  · exact make_constant_ok c nl (.string n) p h

theorem define_variable_ok (c : Compiler) (l g : Nat) (c' : Compiler)
    (h : c.define_variable l g = .ok c') :
    c.function.chunk.length ≤ c'.function.chunk.length := by
  simp only [define_variable] at h
  split at h
  · split at h
    · exact Except.noConfusion h
    · injection h with h
      subst h
      exact Nat.le_refl _
  · injection h with h
    subst h
    exact le_emit_with_arg c l .DefineGlobal g

theorem end_scope_loop_ok (c : Compiler) (l : Nat) (c' : Compiler)
    (h : c.end_scope_loop l = .ok c') :
    c.function.chunk.length ≤ c'.function.chunk.length := by
  induction c, l using end_scope_loop.induct with
  | case1 c l hl =>
    rw [end_scope_loop, hl] at h
    injection h with h
    subst h
    exact Nat.le_refl _
  | case2 c l lo hl hd =>
    rw [end_scope_loop, hl] at h
    simp only [hd] at h
    exact Except.noConfusion h
  | case3 c l lo hl d hd hlt ih =>
    rw [end_scope_loop, hl] at h
    simp only [hd, if_pos hlt] at h
    exact le_trans (le_emit c l .Pop) (ih h)
  | case4 c l lo hl d hd hlt =>
    rw [end_scope_loop, hl] at h
    simp only [hd, if_neg hlt] at h
    injection h with h
    subst h
    exact Nat.le_refl _

theorem end_scope_ok (c : Compiler) (l : Nat) (c' : Compiler)
    (h : c.end_scope l = .ok c') :
    c.function.chunk.length ≤ c'.function.chunk.length := by
  simp only [end_scope] at h
  exact end_scope_loop_ok { c with scope_depth := c.scope_depth - 1 } l c' h

theorem compile_params_ok (ps : List (Nat × String)) :
    ∀ c c', compile_params c ps = .ok c' → c'.function.chunk = c.function.chunk := by
  induction ps with
  | nil =>
    intro c c' h
    injection h with h
    subst h
    rfl
  | cons p rest ih =>
    intro c c' h
    obtain ⟨l, nm⟩ := p
    simp only [compile_params] at h
    split at h
    · exact Except.noConfusion h
    · rename_i c1 idx heq
      rw [ih c1 c' h, declare_variable_ok c l nm true (c1, idx) heq]

theorem le_make_constant (c : Compiler) (l : Nat) (v : Value) (c1 : Compiler) (idx : Nat)
    (h : c.make_constant l v = .ok (c1, idx)) :
    c.function.chunk.length ≤ c1.function.chunk.length := by
  rw [show c1 = ((c1, idx) : Compiler × Nat).1 from rfl, make_constant_ok c l v (c1, idx) h]

theorem le_emit_jump (c : Compiler) (l : Nat) (op : OpCode) (c2 : Compiler) (j : Nat)
    (h : c.emit_jump l op = (c2, j)) :
    c.function.chunk.length ≤ c2.function.chunk.length := by
  have := (emit_jump_chunk c l op).1
  rw [h] at this
  simp [this]

theorem le_patch_jump (c : Compiler) (l i : Nat) (c' : Compiler)
    (h : c.patch_jump l i = .ok c') :
    c.function.chunk.length ≤ c'.function.chunk.length :=
  Nat.le_of_eq (patch_jump_ok_len c l i c' h).symm

theorem le_emit_loop (c : Compiler) (l ls : Nat) (c' : Compiler)
    (h : c.emit_loop l ls = .ok c') :
    c.function.chunk.length ≤ c'.function.chunk.length := by
  rw [(emit_loop_ok c l ls c' h).1]
  simp

theorem le_declare_variable (c : Compiler) (nl : Nat) (n : String) (ini : Bool)
    (c1 : Compiler) (g : Nat) (h : c.declare_variable nl n ini = .ok (c1, g)) :
    c.function.chunk.length ≤ c1.function.chunk.length := by
  rw [show c1 = ((c1, g) : Compiler × Nat).1 from rfl, declare_variable_ok c nl n ini (c1, g) h]

theorem le_compile_params (ps : List (Nat × String)) (c c' : Compiler)
    (h : compile_params c ps = .ok c') :
    c.function.chunk.length ≤ c'.function.chunk.length :=
  Nat.le_of_eq (congrArg List.length (compile_params_ok ps c c' h)).symm

theorem le_emit_return (c : Compiler) (l : Nat) :
    c.function.chunk.length ≤ (c.emit_return l).function.chunk.length := by
  rw [emit_return]
  cases c.fn_type <;>
    simp only [emit_with_arg_chunk, emit_chunk] <;> simp

end Compiler

end Rlox

namespace Rlox
open Compiler in
set_option maxHeartbeats 1600000 in
theorem compile_expr_mono : ∀ c e c', compile_expr c e = .ok c' →
    c.function.chunk.length ≤ c'.function.chunk.length := by
  intro c e
  induction c, e using compile_expr.induct
  case motive2 =>
    rename_i c2 es
    exact ∀ c', compile_exprs c2 es = .ok c' → c2.function.chunk.length ≤ c'.function.chunk.length
  all_goals intro c' h
  all_goals try (cases ‹UnaryOp›)
  all_goals try simp only [compile_expr, compile_exprs] at h
  all_goals try simp only [*] at h
  all_goals repeat' split at h
  all_goals try exact Except.noConfusion h
  all_goals try (injection h with h; subst h)
  all_goals try (exfalso; simp_all; done)
  case case4 =>
    rename_i hm c2 hv ih
    refine Nat.le_trans ?_ (le_emit_with_arg _ _ _ _)
    refine Nat.le_trans ?_ (ih _ hv)
    split at hm
    · exact Except.noConfusion hm
    · simp only [Except.ok.injEq, Prod.mk.injEq] at hm
      obtain ⟨h1, h2, h3⟩ := hm
      subst h1
      exact Nat.le_refl _
    · split at hm
      · exact Except.noConfusion hm
      · rename_i cm idx heq
        simp only [Except.ok.injEq, Prod.mk.injEq] at hm
        obtain ⟨h1, h2, h3⟩ := hm
        subst h1
        exact le_make_constant _ _ _ _ _ heq
  case case7 =>
    rename_i hlhs cb jump hj cc hrhs ih2 ih1
    exact Nat.le_trans (ih2 _ hlhs) (Nat.le_trans (le_emit_jump _ _ _ _ _ hj)
      (Nat.le_trans (Nat.le_trans (le_emit _ _ _) (ih1 _ hrhs)) (le_patch_jump _ _ _ _ h)))
  case case10 =>
    rename_i hlhs cb jump hj cc hrhs ih2 ih1
    exact Nat.le_trans (ih2 _ hlhs) (Nat.le_trans (le_emit_jump _ _ _ _ _ hj)
      (Nat.le_trans (Nat.le_trans (le_emit _ _ _) (ih1 _ hrhs)) (le_patch_jump _ _ _ _ h)))
  case case15 =>
    rename_i hlhs cb hrhs hne1 hne2 ih2 ih1
    exact Nat.le_trans (ih2 _ hlhs) (Nat.le_trans (ih1 _ hrhs)
      (Nat.le_trans (le_emit _ _ _) (le_emit _ _ _)))
  case case16 =>
    rename_i hlhs cb hrhs hne1 hne2 ih2 ih1
    exact Nat.le_trans (ih2 _ hlhs) (Nat.le_trans (ih1 _ hrhs) (le_emit _ _ _))
  case case17 =>
    rename_i hlhs cb hrhs hne1 hne2 ih2 ih1
    exact Nat.le_trans (ih2 _ hlhs) (Nat.le_trans (ih1 _ hrhs) (le_emit _ _ _))
  case case18 =>
    rename_i hlhs cb hrhs hne1 hne2 ih2 ih1
    exact Nat.le_trans (ih2 _ hlhs) (Nat.le_trans (ih1 _ hrhs) (le_emit _ _ _))
  case case19 =>
    rename_i hlhs cb hrhs hne1 hne2 ih2 ih1
    exact Nat.le_trans (ih2 _ hlhs) (Nat.le_trans (ih1 _ hrhs) (le_emit _ _ _))
  case case20 =>
    rename_i hlhs cb hrhs hne1 hne2 ih2 ih1
    exact Nat.le_trans (ih2 _ hlhs) (Nat.le_trans (ih1 _ hrhs) (le_emit _ _ _))
  case case21 =>
    rename_i hlhs cb hrhs hne1 hne2 ih2 ih1
    exact Nat.le_trans (ih2 _ hlhs) (Nat.le_trans (ih1 _ hrhs) (le_emit _ _ _))
  case case22 =>
    rename_i hlhs cb hrhs hne1 hne2 ih2 ih1
    exact Nat.le_trans (ih2 _ hlhs) (Nat.le_trans (ih1 _ hrhs) (le_emit _ _ _))
  case case23 =>
    rename_i hlhs cb hrhs hne1 hne2 ih2 ih1
    exact Nat.le_trans (ih2 _ hlhs) (Nat.le_trans (ih1 _ hrhs) (le_emit _ _ _))
  case case24 =>
    rename_i hlhs cb hrhs hne1 hne2 ih2 ih1
    exact Nat.le_trans (ih2 _ hlhs) (Nat.le_trans (ih1 _ hrhs) (le_emit _ _ _))
  case case26.Not =>
    rename_i cb hinner ih
    exact Nat.le_trans (ih _ hinner) (le_emit _ _ _)
  case case26.Neg =>
    rename_i cb hinner ih
    exact Nat.le_trans (ih _ hinner) (le_emit _ _ _)
  case case31.isFalse =>
    rename_i hrc cb hargs ih2 ih1 hf
    exact Nat.le_trans (ih2 _ hrc) (Nat.le_trans (ih1 _ hargs) (le_emit_with_arg _ _ _ _))
  case case32 => exact le_emit _ _ _
  case case33 => exact le_emit _ _ _
  case case34 => exact le_emit _ _ _
  case case35 => exact le_emit_constant _ _ _ _ _ h
  case case36 => exact le_emit_constant _ _ _ _ _ h
  case case38 => exact le_emit_with_arg _ _ _ _
  case case40 =>
    rename_i ca idx hm
    exact Nat.le_trans (le_make_constant _ _ _ _ _ hm) (le_emit_with_arg _ _ _ _)
  case case41 => exact Nat.le_refl _
  case case43 =>
    rename_i hce ih2 ih1
    exact Nat.le_trans (ih2 _ hce) (ih1 _ h)
end Rlox

namespace Rlox
open Compiler in
set_option maxHeartbeats 1600000 in
theorem compile_stmt_mono : ∀ c s c', compile_stmt c s = .ok c' →
    c.function.chunk.length ≤ c'.function.chunk.length := by
  intro c s
  induction c, s using compile_stmt.induct
  case motive2 =>
    rename_i c2 ss
    exact ∀ c', compile_stmts c2 ss = .ok c' → c2.function.chunk.length ≤ c'.function.chunk.length
  all_goals intro c' h
  all_goals try simp only [compile_stmt, compile_stmts] at h
  all_goals try simp only [*] at h
  all_goals repeat' split at h
  all_goals try exact Except.noConfusion h
  all_goals try (injection h with h; subst h)
  all_goals try (exfalso; simp_all; done)
  case case3 =>
    rename_i hdecl c2 hinit
    refine Nat.le_trans ?_ (define_variable_ok _ _ _ _ h)
    refine Nat.le_trans (le_declare_variable _ _ _ _ _ _ hdecl) ?_
    split at hinit
    · exact compile_expr_mono _ _ _ hinit
    · injection hinit with hinit
      subst hinit
      exact le_emit _ _ _
  case case5 =>
    rename_i ce hce
    exact Nat.le_trans (compile_expr_mono _ _ _ hce) (le_emit _ _ _)
  case case12.isFalse =>
    rename_i hgt c3 idx hdecl n1 n2 cp hcp cb hcb cc hconst ih hf
    refine Nat.le_trans (le_declare_variable _ _ _ _ _ _ hdecl) ?_
    exact Nat.le_trans (le_emit_constant _ _ _ _ _ hconst) (define_variable_ok _ _ _ _ h)
  case case17 =>
    rename_i hcond c4 j1 hej1 c3 hthen c2 j2 hej2 c1 hp1 cc helse ih2 ih1
    exact Nat.le_trans (compile_expr_mono _ _ _ hcond) (Nat.le_trans (le_emit_jump _ _ _ _ _ hej1)
      (Nat.le_trans (ih2 _ hthen) (Nat.le_trans (le_emit_jump _ _ _ _ _ hej2)
        (Nat.le_trans (le_patch_jump _ _ _ _ hp1)
          (Nat.le_trans (ih1 _ helse) (le_patch_jump _ _ _ _ h))))))
  case case20 =>
    rename_i hcond c1 j hej cc hthen ih
    exact Nat.le_trans (compile_expr_mono _ _ _ hcond) (Nat.le_trans (le_emit_jump _ _ _ _ _ hej)
      (Nat.le_trans (ih _ hthen) (le_patch_jump _ _ _ _ h)))
  case case22 =>
    rename_i ce hce
    exact Nat.le_trans (compile_expr_mono _ _ _ hce) (le_emit _ _ _)
  case case23 =>
    rename_i hscript
    rw [compile_stmt.eq_def] at h
    simp only [if_pos hscript] at h
    exact Except.noConfusion h
  case case26.isFalse =>
    rename_i hce hf
    exact Nat.le_trans (compile_expr_mono _ _ _ hce) (le_emit _ _ _)
  case case27.isFalse => exact le_emit_return _ _
  case case31 =>
    rename_i hcond c2 j hej c3 hbody c4 hloop ih
    exact Nat.le_trans (compile_expr_mono _ _ _ hcond) (Nat.le_trans (le_emit_jump _ _ _ _ _ hej)
      (Nat.le_trans (ih _ hbody) (Nat.le_trans (le_emit_loop _ _ _ _ hloop)
        (le_patch_jump _ _ _ _ h))))
  case case33 =>
    rename_i hstmts ih
    refine Nat.le_trans ?_ (end_scope_ok _ _ _ h)
    have h2 := ih _ hstmts
    simpa [Compiler.begin_scope] using h2
  case case34 => exact Nat.le_refl _
  case case36 =>
    rename_i hs ih2 ih1
    exact Nat.le_trans (ih2 _ hs) (ih1 _ h)
end Rlox

namespace Rlox
open Compiler in
/-- C5: the `Loop` instruction emitted for a `while` statement carries an
offset equal to the distance from the byte after its two-byte operand back
to `loop_start`, and executing it in the VM sets the frame's `ip` exactly
to `loop_start` (the first byte of the condition's code). -/
theorem c5_loop_target (c : Compiler) (cond : Expr) (rpl : Nat) (body : Stmt)
    (c' : Compiler) (h : compile_stmt c (.While cond rpl body) = .ok c') :
    ∃ L ofs,
      c.function.chunk.length ≤ L ∧
      c'.function.chunk.length = L + 3 ∧
      c'.function.chunk[L]? = some OpCode.Loop.toU8 ∧
      c'.function.chunk[L + 1]? = some (ofs % 256) ∧
      c'.function.chunk[L + 2]? = some (ofs / 256 % 256) ∧
      ofs ≤ 65535 ∧
      ofs = L + 3 - c.function.chunk.length ∧
      (∀ (s : VmState) (f : CallFrame) (fn2 : FunctionInner),
        f.ip = L → fn2.chunk = c'.function.chunk →
        execInstr s f fn2 .Loop =
          .ok ({ s with frames := setLastFrame s.frames ({ f with ip := c.function.chunk.length }) })) := by
  simp only [compile_stmt] at h
  split at h
  · exact Except.noConfusion h
  rename_i c1 hcond
  split at h
  · exact Except.noConfusion h
  rename_i c3 hbody
  split at h
  · exact Except.noConfusion h
  rename_i c4 hloop
  have hc2 : (c1.emit_jump rpl OpCode.JumpIfFalsePop).1.function.chunk
      = c1.function.chunk ++ [OpCode.JumpIfFalsePop.toU8, 0, 0] :=
    (emit_jump_chunk c1 rpl .JumpIfFalsePop).1
  have hjv : (c1.emit_jump rpl OpCode.JumpIfFalsePop).2 = c1.function.chunk.length + 1 :=
    (emit_jump_chunk c1 rpl .JumpIfFalsePop).2
  have h1 : c.function.chunk.length ≤ c1.function.chunk.length := compile_expr_mono _ _ _ hcond
  have h2l : (c1.emit_jump rpl OpCode.JumpIfFalsePop).1.function.chunk.length
      = c1.function.chunk.length + 3 := by rw [hc2]; simp
  have h3 : (c1.emit_jump rpl OpCode.JumpIfFalsePop).1.function.chunk.length
      ≤ c3.function.chunk.length := compile_stmt_mono _ _ _ hbody
  obtain ⟨hc4, hofs⟩ := emit_loop_ok c3 body.last_line c.function.chunk.length c4 hloop
  have hls : c.function.chunk.length ≤ c3.function.chunk.length := by omega
  have hofseq : c3.function.chunk.length + 1 - c.function.chunk.length + 2
      = c3.function.chunk.length + 3 - c.function.chunk.length := by omega
  rw [hofseq] at hc4 hofs
  have hplen : c'.function.chunk.length = c4.function.chunk.length := patch_jump_ok_len _ _ _ _ h
  have hc4len : c4.function.chunk.length = c3.function.chunk.length + 3 := by rw [hc4]; simp
  have hjlt : (c1.emit_jump rpl OpCode.JumpIfFalsePop).2 + 1 < c3.function.chunk.length := by omega
  have g0 : c'.function.chunk[c3.function.chunk.length]? = some OpCode.Loop.toU8 := by
    rw [patch_jump_ok_get c4 body.last_line _ c' h _ (by omega) (by omega), hc4,
        List.getElem?_append_right (Nat.le_refl _), Nat.sub_self]
    rfl
  have g1 : c'.function.chunk[c3.function.chunk.length + 1]? =
      some ((c3.function.chunk.length + 3 - c.function.chunk.length) % 256) := by
    rw [patch_jump_ok_get c4 body.last_line _ c' h _ (by omega) (by omega), hc4,
        List.getElem?_append_right (by omega), Nat.add_sub_cancel_left]
    rfl
  have g2 : c'.function.chunk[c3.function.chunk.length + 2]? =
      some ((c3.function.chunk.length + 3 - c.function.chunk.length) / 256 % 256) := by
    rw [patch_jump_ok_get c4 body.last_line _ c' h _ (by omega) (by omega), hc4,
        List.getElem?_append_right (by omega), Nat.add_sub_cancel_left]
    rfl
  refine ⟨c3.function.chunk.length, c3.function.chunk.length + 3 - c.function.chunk.length,
    hls, by omega, g0, g1, g2, hofs, rfl, ?_⟩
  intro s f fn2 hip hchunk
  have e1 : fn2.chunk.get? (f.ip + 1) =
      some ((c3.function.chunk.length + 3 - c.function.chunk.length) % 256) := by
    rw [hchunk, hip, List.get?_eq_getElem?]
    exact g1
  have e2 : fn2.chunk.get? (f.ip + 2) =
      some ((c3.function.chunk.length + 3 - c.function.chunk.length) / 256 % 256) := by
    rw [hchunk, hip, List.get?_eq_getElem?]
    exact g2
  have hble : (c3.function.chunk.length + 3 - c.function.chunk.length) % 256
      + 256 * ((c3.function.chunk.length + 3 - c.function.chunk.length) / 256 % 256)
      = c3.function.chunk.length + 3 - c.function.chunk.length := by omega
  simp only [execInstr, e1, e2]
  rw [hble, hip, if_pos (by omega)]
  have hres : c3.function.chunk.length + 3
      - (c3.function.chunk.length + 3 - c.function.chunk.length)
      = c.function.chunk.length := by omega
  rw [hres]
end Rlox

namespace Rlox

open Compiler in
/-- Witness for C5 at the program `while (true) true;`. -/
theorem c5_loop_target_witness :
    compile_stmt (Compiler.new .Script) (.While (.True 1) 1 (.Expr (.True 1) 1)) = .ok c5W ∧
    (∃ L ofs,
      (Compiler.new .Script).function.chunk.length ≤ L ∧
      c5W.function.chunk.length = L + 3 ∧
      c5W.function.chunk[L]? = some OpCode.Loop.toU8 ∧
      c5W.function.chunk[L + 1]? = some (ofs % 256) ∧
      c5W.function.chunk[L + 2]? = some (ofs / 256 % 256) ∧
      ofs ≤ 65535 ∧
      ofs = L + 3 - (Compiler.new .Script).function.chunk.length ∧
      (∀ (s : VmState) (f : CallFrame) (fn2 : FunctionInner),
        f.ip = L → fn2.chunk = c5W.function.chunk →
        execInstr s f fn2 .Loop =
          .ok ({ s with frames := setLastFrame s.frames ({ f with ip := (Compiler.new .Script).function.chunk.length }) }))) := by
  have h : compile_stmt (Compiler.new .Script) (.While (.True 1) 1 (.Expr (.True 1) 1)) = .ok c5W := by
    simp [c5W, compile_stmt, compile_expr, Compiler.new, FunctionInner.default,
          Compiler.emit, Compiler.add_code, Compiler.emit_jump, Compiler.patch_jump,
          Compiler.emit_loop, Expr.last_line, Stmt.last_line, OpCode.toU8,
          FunctionInner.chunk, FunctionInner.arity, FunctionInner.lines,
          FunctionInner.constants, FunctionInner.name]
  exact ⟨h, c5_loop_target _ _ _ _ _ h⟩
end Rlox
